import Mathlib

/-!
A shallow embedding of `api.go` of fske/dockerclient.

Go `string` values are modelled by Lean `String` (a sequence of Unicode scalar
values, i.e. exactly the valid UTF-8 strings); byte slices are `List Nat`.
The Go standard library pieces that `genAuthStr` calls (`encoding/json`,
`encoding/base64`, `unicode/utf8`) are modelled on bytes, following the
library sources.
-/

namespace Dockerclient

/-! ## unicode/utf8 -/

/-- Go `utf8.RuneError`, the replacement character U+FFFD. -/
def RuneError : Nat := 0xFFFD

/-- Go `utf8.EncodeRune`: the UTF-8 bytes of a rune; surrogates and values above
`utf8.MaxRune` are encoded as `RuneError`. -/
def utf8EncodeRune (r : Nat) : List Nat :=
  if r < 0x80 then [r]
  else if r < 0x800 then [0xC0 + r / 64, 0x80 + r % 64]
  else if 0x10FFFF < r ∨ (0xD800 ≤ r ∧ r ≤ 0xDFFF) then [0xEF, 0xBF, 0xBD]
  else if r < 0x10000 then [0xE0 + r / 4096, 0x80 + r / 64 % 64, 0x80 + r % 64]
  else [0xF0 + r / 262144, 0x80 + r / 4096 % 64, 0x80 + r / 64 % 64, 0x80 + r % 64]

/-- The bytes of a Go string holding the text `s` (`[]byte(s)`). -/
def stringBytes (s : List Char) : List Nat :=
  s.flatMap (fun c => utf8EncodeRune c.toNat)

/-- Go `utf8.DecodeRune` / `utf8.DecodeRuneInString`: the first rune of `s` and its
width in bytes; `(RuneError, 1)` on an invalid or truncated encoding and
`(RuneError, 0)` on empty input.  The `first` and `acceptRanges` tables are
written out as comparisons. -/
def decodeRune : List Nat → Nat × Nat
  | [] => (RuneError, 0)
  | s0 :: t =>
    if s0 < 0x80 then (s0, 1)
    else if s0 < 0xC2 ∨ 0xF4 < s0 then (RuneError, 1)
    else
      let sz := if s0 < 0xE0 then 2 else if s0 < 0xF0 then 3 else 4
      let lo := if s0 = 0xE0 then 0xA0 else if s0 = 0xF0 then 0x90 else 0x80
      let hi := if s0 = 0xED then 0x9F else if s0 = 0xF4 then 0x8F else 0xBF
      if t.length + 1 < sz then (RuneError, 1)
      else
        match t with
        | [] => (RuneError, 1)
        | s1 :: t1 =>
          if s1 < lo ∨ hi < s1 then (RuneError, 1)
          else if sz ≤ 2 then (s0 % 32 * 64 + s1 % 64, 2)
          else
            match t1 with
            | [] => (RuneError, 1)
            | s2 :: t2 =>
              if s2 < 0x80 ∨ 0xBF < s2 then (RuneError, 1)
              else if sz ≤ 3 then (s0 % 16 * 4096 + s1 % 64 * 64 + s2 % 64, 3)
              else
                match t2 with
                | [] => (RuneError, 1)
                | s3 :: _ =>
                  if s3 < 0x80 ∨ 0xBF < s3 then (RuneError, 1)
                  else (s0 % 8 * 262144 + s1 % 64 * 4096 + s2 % 64 * 64 + s3 % 64, 4)

/-! ## encoding/json, encoder side -/

/-- The digit table `hex = "0123456789abcdef"` of `encoding/json`. -/
def hex (n : Nat) : Nat := if n < 10 then 0x30 + n else 0x57 + n

/-- The table `htmlSafeSet` of `encoding/json`: the ASCII bytes that are written
without escaping when HTML escaping is on (as it is for `json.Marshal`). -/
def htmlSafeSet (b : Nat) : Bool :=
  decide (0x20 ≤ b ∧ b < 0x80 ∧ b ≠ 0x22 ∧ b ≠ 0x5C ∧ b ≠ 0x3C ∧ b ≠ 0x3E ∧ b ≠ 0x26)

/-- The escape written by `encodeState.string` for an ASCII byte outside
`htmlSafeSet`. -/
def escapeByte (b : Nat) : List Nat :=
  if b = 0x5C ∨ b = 0x22 then [0x5C, b]
  else if b = 0x0A then [0x5C, 0x6E]
  else if b = 0x0D then [0x5C, 0x72]
  else if b = 0x09 then [0x5C, 0x74]
  else [0x5C, 0x75, 0x30, 0x30, hex (b / 16), hex (b % 16)]

/-- The body of the loop of `encodeState.string(s, escapeHTML = true)`, one
iteration per unit of fuel; the quotes are added by `encodeString`. -/
def encodeStringLoop : Nat → List Nat → List Nat
  | 0, _ => []
  | _ + 1, [] => []
  | fuel + 1, b :: t =>
    if b < 0x80 then
      if htmlSafeSet b then b :: encodeStringLoop fuel t
      else escapeByte b ++ encodeStringLoop fuel t
    else
      let (c, size) := decodeRune (b :: t)
      if c = RuneError ∧ size = 1 then
        [0x5C, 0x75, 0x66, 0x66, 0x66, 0x64] ++ encodeStringLoop fuel t
      else if c = 0x2028 ∨ c = 0x2029 then
        [0x5C, 0x75, 0x32, 0x30, 0x32, hex (c % 16)] ++ encodeStringLoop fuel ((b :: t).drop size)
      else (b :: t).take size ++ encodeStringLoop fuel ((b :: t).drop size)

/-- Go `encodeState.string`: the JSON string literal for the Go string with
bytes `s`.  Every iteration consumes at least one byte, so `s.length` units of
fuel are enough. -/
def encodeString (s : List Nat) : List Nat :=
  [0x22] ++ encodeStringLoop s.length s ++ [0x22]

/-- The struct `types.AuthConfig` of `github.com/docker/docker/api/types`; every
field is a string carrying the tag `json:"<lower-case name>,omitempty"`. -/
structure AuthConfig where
  Username : String := ""
  Password : String := ""
  Auth : String := ""
  Email : String := ""
  ServerAddress : String := ""
  IdentityToken : String := ""
  RegistryToken : String := ""
  deriving DecidableEq, Repr

/-- The JSON names of the fields of `AuthConfig`, in declaration order. -/
def authConfigFieldNames : List String :=
  ["username", "password", "auth", "email", "serveraddress", "identitytoken", "registrytoken"]

/-- The field values of an `AuthConfig`, in declaration order. -/
def AuthConfig.fieldValues (a : AuthConfig) : List String :=
  [a.Username, a.Password, a.Auth, a.Email, a.ServerAddress, a.IdentityToken, a.RegistryToken]

/-- One member `"name":"value"` of the encoded object. -/
def encodeMember (name value : String) : List Nat :=
  [0x22] ++ stringBytes name.data ++ [0x22, 0x3A] ++ encodeString (stringBytes value.data)

/-- The struct encoder of `encoding/json` on string fields: the members of the
fields that are kept, separated by commas. -/
def encodeMembers : List (List Nat) → List Nat
  | [] => []
  | [m] => m
  | m :: ms => m ++ [0x2C] ++ encodeMembers ms

/-- Go `json.Marshal(authConfig)`: the fields in declaration order, an empty
string field left out (`omitempty`), between braces. -/
def jsonMarshal (a : AuthConfig) : List Nat :=
  let kept := (authConfigFieldNames.zip a.fieldValues).filter (fun nv => nv.2 ≠ "")
  [0x7B] ++ encodeMembers (kept.map (fun nv => encodeMember nv.1 nv.2)) ++ [0x7D]

/-! ## encoding/base64 -/

/-- The alphabet `encodeURL` of `encoding/base64`. -/
def encodeURL : List Char :=
  "ABCDEFGHIJKLMNOPQRSTUVWXYZabcdefghijklmnopqrstuvwxyz0123456789-_".data

/-- The character for a 6-bit value, `enc.encode[v]`. -/
def encodeDigit (v : Nat) : Char := encodeURL.getD v 'A'

/-- Go `base64.URLEncoding.EncodeToString`: three bytes to four characters, the
last group padded with `=`. -/
def base64Encode : List Nat → List Char
  | a :: b :: c :: rest =>
    let val := a * 65536 + b * 256 + c
    [encodeDigit (val / 262144 % 64), encodeDigit (val / 4096 % 64),
     encodeDigit (val / 64 % 64), encodeDigit (val % 64)] ++ base64Encode rest
  | [a, b] =>
    let val := a * 65536 + b * 256
    [encodeDigit (val / 262144 % 64), encodeDigit (val / 4096 % 64),
     encodeDigit (val / 64 % 64), '=']
  | [a] =>
    let val := a * 65536
    [encodeDigit (val / 262144 % 64), encodeDigit (val / 4096 % 64), '=', '=']
  | [] => []

/-- The table `enc.decodeMap`, built from the alphabet: the 6-bit value of a
character of the alphabet, nothing for any other character. -/
def decodeDigit (c : Char) : Option Nat :=
  let i := encodeURL.indexOf c
  if i < 64 then some i else none

/-- The groups of four characters of a padded base64 text, after the line breaks
are removed: padding is accepted in the last group only, one or two `=`, and
anything after it is an error. -/
def base64DecodeQuanta : List Char → Option (List Nat)
  | [] => some []
  | c0 :: c1 :: c2 :: c3 :: rest =>
    match decodeDigit c0, decodeDigit c1 with
    | some d0, some d1 =>
      if c2 = '=' then
        if c3 = '=' ∧ rest = [] then some [(d0 * 262144 + d1 * 4096) / 65536 % 256] else none
      else
        match decodeDigit c2 with
        | none => none
        | some d2 =>
          if c3 = '=' then
            if rest = [] then
              let val := d0 * 262144 + d1 * 4096 + d2 * 64
              some [val / 65536 % 256, val / 256 % 256]
            else none
          else
            match decodeDigit c3 with
            | none => none
            | some d3 =>
              let val := d0 * 262144 + d1 * 4096 + d2 * 64 + d3
              (base64DecodeQuanta rest).map
                (fun out => [val / 65536 % 256, val / 256 % 256, val % 256] ++ out)
    | _, _ => none
  | _ => none

/-- Go `base64.URLEncoding.DecodeString`: carriage returns and line feeds are
skipped, everything else is decoded in groups of four. -/
def base64Decode (s : String) : Option (List Nat) :=
  base64DecodeQuanta (s.data.filter (fun c => c ≠ '\r' ∧ c ≠ '\n'))

/-! ## encoding/json, decoder side -/

/-- The value of a hexadecimal digit, as read by `getu4`. -/
def hexValue (b : Nat) : Option Nat :=
  if 0x30 ≤ b ∧ b ≤ 0x39 then some (b - 0x30)
  else if 0x61 ≤ b ∧ b ≤ 0x66 then some (b - 0x61 + 10)
  else if 0x41 ≤ b ∧ b ≤ 0x46 then some (b - 0x41 + 10)
  else none

/-- Go `getu4`: the number written by the four hexadecimal digits of an escape
`\uXXXX` at the head of `s`, nothing if `s` does not start with one. -/
def getu4 : List Nat → Option Nat
  | c0 :: c1 :: a :: b :: c :: d :: _ =>
    if c0 = 0x5C ∧ c1 = 0x75 then
      match hexValue a, hexValue b, hexValue c, hexValue d with
      | some x, some y, some z, some w => some (((x * 16 + y) * 16 + z) * 16 + w)
      | _, _, _, _ => none
    else none
  | _ => none

/-- Go `utf16.DecodeRune`: the code point of a surrogate pair, `RuneError` if the
two values are not a high and a low surrogate. -/
def utf16DecodeRune (r1 r2 : Nat) : Nat :=
  if 0xD800 ≤ r1 ∧ r1 < 0xDC00 ∧ 0xDC00 ≤ r2 ∧ r2 < 0xE000 then
    (r1 - 0xD800) * 1024 + (r2 - 0xDC00) + 0x10000
  else RuneError

/-- The character written for a one-letter escape of a JSON string. -/
def simpleEscape (e : Nat) : Option Char :=
  if e = 0x22 ∨ e = 0x5C ∨ e = 0x2F then some (Char.ofNat e)
  else if e = 0x62 then some (Char.ofNat 0x08)
  else if e = 0x66 then some (Char.ofNat 0x0C)
  else if e = 0x6E then some (Char.ofNat 0x0A)
  else if e = 0x72 then some (Char.ofNat 0x0D)
  else if e = 0x74 then some (Char.ofNat 0x09)
  else none

/-- Go `unquoteBytes`, from the byte after the opening quote: the runes of the
string and the input left after the closing quote.  A raw control character, a
bad escape and a missing closing quote are errors; an invalid UTF-8 sequence and
an unpaired surrogate escape are replaced by U+FFFD.  The result is given as the
list of runes that the library appends with `utf8.EncodeRune`. -/
def unquoteLoop : Nat → List Nat → Option (List Char × List Nat)
  | 0, _ => none
  | _ + 1, [] => none
  | fuel + 1, c :: t =>
    if c = 0x5C then
      match t with
      | [] => none
      | e :: t1 =>
        if e = 0x75 then
          match getu4 (c :: t) with
          | none => none
          | some rr =>
            let t2 := t1.drop 4
            if 0xD800 ≤ rr ∧ rr < 0xE000 then
              let dec := match getu4 t2 with
                | some rr1 => utf16DecodeRune rr rr1
                | none => RuneError
              if dec ≠ RuneError then
                (unquoteLoop fuel (t2.drop 6)).map (fun r => (Char.ofNat dec :: r.1, r.2))
              else (unquoteLoop fuel t2).map (fun r => (Char.ofNat RuneError :: r.1, r.2))
            else (unquoteLoop fuel t2).map (fun r => (Char.ofNat rr :: r.1, r.2))
        else
          match simpleEscape e with
          | none => none
          | some ch => (unquoteLoop fuel t1).map (fun r => (ch :: r.1, r.2))
    else if c = 0x22 then some ([], t)
    else if c < 0x20 then none
    else if c < 0x80 then (unquoteLoop fuel t).map (fun r => (Char.ofNat c :: r.1, r.2))
    else
      let (rr, size) := decodeRune (c :: t)
      (unquoteLoop fuel ((c :: t).drop size)).map (fun r => (Char.ofNat rr :: r.1, r.2))

/-- A JSON string literal at the head of `s`: its value and the input after it.
Every iteration of the loop consumes at least one byte. -/
def parseString : List Nat → Option (List Char × List Nat)
  | [] => none
  | c :: t => if c = 0x22 then unquoteLoop t.length t else none

/-- The white space of JSON: space, tab, carriage return, line feed. -/
def skipSpace : List Nat → List Nat
  | [] => []
  | c :: t => if c = 0x20 ∨ c = 0x09 ∨ c = 0x0D ∨ c = 0x0A then skipSpace t else c :: t

/-- The case folding `encoding/json` uses to match an object key with a field
name made of lower-case ASCII letters: each key character is the letter of the
name in either case, or U+017F for `s`, or U+212A for `k`. -/
def equalFold : List Char → List Char → Bool
  | [], [] => true
  | n :: ns, k :: ks =>
    (k = n || k.toNat + 32 = n.toNat || (n = 's' && k.toNat = 0x17F)
      || (n = 'k' && k.toNat = 0x212A)) && equalFold ns ks
  | _, _ => false

/-- The field search of `decodeState.object`: an exact match of the key wins, or
else the first field whose name matches under case folding. -/
def findFieldLoop (key : List Char) : List String → Nat → Option Nat → Option Nat
  | [], _, f => f
  | name :: rest, i, f =>
    if name.data = key then some i
    else findFieldLoop key rest (i + 1) (if f.isNone ∧ equalFold name.data key then some i else f)

/-- The index of the field of `AuthConfig` that the object key `key` sets. -/
def findField (key : List Char) : Option Nat :=
  findFieldLoop key authConfigFieldNames 0 none

/-- Store a string in the field of the given index. -/
def AuthConfig.setField (a : AuthConfig) (i : Nat) (v : String) : AuthConfig :=
  match i with
  | 0 => { a with Username := v }
  | 1 => { a with Password := v }
  | 2 => { a with Auth := v }
  | 3 => { a with Email := v }
  | 4 => { a with ServerAddress := v }
  | 5 => { a with IdentityToken := v }
  | 6 => { a with RegistryToken := v }
  | _ => a

/-- The member loop of `decodeState.object`, with `s` at the opening quote of a
key: key, colon, value, then a comma and the next member or the closing brace.
A key that matches no field is skipped.  The model accepts string literals as
values and rejects every other value. -/
def objectLoop : Nat → AuthConfig → List Nat → Option (AuthConfig × List Nat)
  | 0, _, _ => none
  | fuel + 1, a, s =>
    match parseString s with
    | none => none
    | some (key, s1) =>
      match skipSpace s1 with
      | [] => none
      | c :: s2 =>
        if c ≠ 0x3A then none
        else
          match parseString (skipSpace s2) with
          | none => none
          | some (val, s3) =>
            let a1 := match findField key with
              | some i => a.setField i (String.mk val)
              | none => a
            match skipSpace s3 with
            | [] => none
            | d :: s4 =>
              if d = 0x2C then objectLoop fuel a1 (skipSpace s4)
              else if d = 0x7D then some (a1, s4)
              else none

/-- Go `json.Unmarshal(data, &authConfig)` into a zero `AuthConfig`, on JSON
objects whose member values are string literals: white space, an opening brace,
the members, a closing brace, white space, end of input.  Anything else is an
error. -/
def jsonUnmarshal (data : List Nat) : Option AuthConfig :=
  match skipSpace data with
  | [] => none
  | c :: t =>
    if c ≠ 0x7B then none
    else
      match skipSpace t with
      | [] => none
      | d :: r =>
        if d = 0x7D then (if skipSpace r = [] then some {} else none)
        else
          match objectLoop data.length {} (d :: r) with
          | none => none
          | some (a, rest) => if skipSpace rest = [] then some a else none

/-! ## genAuthStr -/

/-- Source `genAuthStr` (api.go:64-71): marshal an `AuthConfig` holding the user
name and the password, and encode the JSON with the URL-safe base64 alphabet.
The error of `json.Marshal` is discarded, as in the source. -/
def genAuthStr (username : String) (password : String) : String :=
  let authConfig : AuthConfig := { Username := username, Password := password }
  let encodedJSON := jsonMarshal authConfig
  String.mk (base64Encode encodedJSON)

/-! ## The engine and the events of a run -/

/-- A non-nil Go `error` value. -/
structure GoError where
  msg : String
  deriving DecidableEq, Repr

/-- Go `types.ImagePullOptions`, the fields the source sets. -/
structure ImagePullOptions where
  All : Bool := false
  RegistryAuth : String := ""
  deriving DecidableEq, Repr

/-- Go `types.ImagePushOptions`, the field the source sets. -/
structure ImagePushOptions where
  RegistryAuth : String := ""
  deriving DecidableEq, Repr

/-- Go `types.ImageRemoveOptions`. -/
structure ImageRemoveOptions where
  Force : Bool := false
  PruneChildren : Bool := false
  deriving DecidableEq, Repr

/-- Go `container.Config`, the fields the source sets. -/
structure ContainerConfig where
  Image : String := ""
  Cmd : List String := []
  deriving DecidableEq, Repr

/-- Go `container.ContainerCreateCreatedBody`. -/
structure ContainerCreateCreatedBody where
  ID : String := ""
  Warnings : List String := []
  deriving DecidableEq, Repr

/-- Go `types.ContainerStartOptions`; the source passes the zero value. -/
structure ContainerStartOptions where
  CheckpointID : String := ""
  CheckpointDir : String := ""
  deriving DecidableEq, Repr

/-- Go `types.ContainerLogsOptions`, the boolean switches. -/
structure ContainerLogsOptions where
  ShowStdout : Bool := false
  ShowStderr : Bool := false
  Timestamps : Bool := false
  Follow : Bool := false
  Details : Bool := false
  deriving DecidableEq, Repr

/-- Go `container.WaitCondition`. -/
inductive WaitCondition where
  | WaitConditionNotRunning
  | WaitConditionNextExit
  | WaitConditionRemoved
  deriving DecidableEq, Repr

/-- What the `select` of `StartContainer` receives from the two channels of
`ContainerWait`: a value of the error channel (possibly nil), the exit status of
the status channel, or nothing ever. -/
inductive WaitSignal where
  | errCh (err : Option GoError)
  | statusCh (StatusCode : Int)
  | never
  deriving DecidableEq, Repr

/-- Go `http.Transport`, the fields the source sets (the timeout in nanoseconds). -/
structure HTTPTransport where
  MaxIdleConns : Nat
  IdleConnTimeout : Nat
  DisableCompression : Bool
  deriving DecidableEq, Repr

/-- The container engine as seen through `client.Client` and the streams it
hands out: every call reads and updates the engine state `σ`.  `κ` is the type
of the client, `χ` of the context, `ρ` of a response stream (`io.ReadCloser`).
`ReadAll` is `ioutil.ReadAll` on a stream, `StdCopy` is `stdcopy.StdCopy` to the
standard output and error of the process.  Results that the source discards are
left out: the list of deleted items of `ImageRemove`, the result of `Close`, the
byte count of `StdCopy`.  `ContainerWait` answers with what the `select` on its
two channels receives. -/
structure Engine (σ κ χ ρ : Type) where
  ImagePull : κ → χ → String → ImagePullOptions → σ → Except GoError ρ × σ
  ImageTag : κ → χ → String → String → σ → Option GoError × σ
  ImagePush : κ → χ → String → ImagePushOptions → σ → Except GoError ρ × σ
  ImageRemove : κ → χ → String → ImageRemoveOptions → σ → Option GoError × σ
  ContainerCreate : κ → χ → ContainerConfig → σ →
    (ContainerCreateCreatedBody × Option GoError) × σ
  ContainerStart : κ → χ → String → ContainerStartOptions → σ → Option GoError × σ
  ContainerWait : κ → χ → String → WaitCondition → σ → WaitSignal × σ
  ContainerLogs : κ → χ → String → ContainerLogsOptions → σ → Except GoError ρ × σ
  ReadAll : ρ → σ → (List Nat × Option GoError) × σ
  Close : ρ → σ → σ
  StdCopy : ρ → σ → Option GoError × σ

/-- What a run does that can be observed from outside, in order: the engine calls
with their results, the stream operations, and the lines handed to `log`. -/
inductive Event (ρ : Type) where
  | imagePull (ref : String) (opts : ImagePullOptions) (res : Except GoError ρ)
  | imageTag (source target : String) (err : Option GoError)
  | imagePush (ref : String) (opts : ImagePushOptions) (res : Except GoError ρ)
  | imageRemove (ref : String) (opts : ImageRemoveOptions) (err : Option GoError)
  | containerCreate (config : ContainerConfig) (resp : ContainerCreateCreatedBody)
      (err : Option GoError)
  | containerStart (id : String) (opts : ContainerStartOptions) (err : Option GoError)
  | containerWait (id : String) (condition : WaitCondition) (signal : WaitSignal)
  | containerLogs (id : String) (opts : ContainerLogsOptions) (res : Except GoError ρ)
  | readAll (stream : ρ) (bytes : List Nat) (err : Option GoError)
  | close (stream : ρ)
  | stdCopy (stream : ρ) (err : Option GoError)
  | logPrintln (operands : List String)
  | logFatal (operands : List String)

/-- How a call of a function of the package ends. -/
inductive Outcome (α : Type) where
  | returned (value : α)
  | panicked (msg : String)
  | exited (code : Nat)
  | blocked
  deriving DecidableEq, Repr

/-- A finished run: how it ended, what it did, and the engine state it left. -/
structure Run (α σ ρ : Type) where
  outcome : Outcome α
  trace : List (Event ρ)
  state : σ

/-- Source `DockerClient` (api.go:21-27). -/
structure DockerClient (κ : Type) where
  cli : κ
  forwardHubDomain : String
  authStrForwardHub : String
  sourceHubDomain : String
  authStrSourceHub : String

/-! ## The functions of api.go -/

/-- Source `NewDockerClient` (api.go:30-62).  `newClient` is `client.NewClient`;
the result is the pair of named results and the lines logged. -/
def NewDockerClient {κ : Type}
    (newClient : String → String → HTTPTransport → Except GoError κ)
    (daemonHost daemonAPIVersion : String)
    (forwardHubDomain forwardHubUsername forwardHubPassword : String)
    (sourceHubDomain sourceHubUsername sourceHubPassword : String) :
    (Option (DockerClient κ) × Option GoError) × List (List String) :=
  let tr : HTTPTransport :=
    { MaxIdleConns := 10, IdleConnTimeout := 5 * 60 * 1000000000, DisableCompression := true }
  match newClient ("http://" ++ daemonHost) daemonAPIVersion tr with
  | .error err => ((none, some err), [["fail to init docker: ", err.msg]])
  | .ok cli =>
    ((some { cli := cli
             forwardHubDomain := forwardHubDomain
             authStrForwardHub := genAuthStr forwardHubUsername forwardHubPassword
             sourceHubDomain := sourceHubDomain
             authStrSourceHub := genAuthStr sourceHubUsername sourceHubPassword }, none), [])

/-- The statement `log.Println(string(respBytes[100]))` (api.go:97 and 118): the
byte at index 100 converted to a string, or the run-time panic of an index out of
range. -/
def logByte100 {ρ : Type} (respBytes : List Nat) : Except String (Event ρ) :=
  match respBytes[100]? with
  | none => .error "runtime error: index out of range"
  | some b => .ok (.logPrintln [String.singleton (Char.ofNat b)])

/-- Source `TransferImageToForwardHub` (api.go:74-140).  The value returned is the
pair of named results `(forwardHubPath, err)`; `forwardHubPath` is assigned on
the last line only, so every early `return` leaves it empty. -/
def TransferImageToForwardHub {σ κ χ ρ : Type} (E : Engine σ κ χ ρ) (c : DockerClient κ)
    (ctx : χ) (dockerProject imageName : String) (s0 : σ) :
    Run (String × Option GoError) σ ρ :=
  let imageFullnameSourceHub := c.sourceHubDomain ++ "/" ++ dockerProject ++ "/" ++ imageName
  let imageFullnameForwardHub := c.forwardHubDomain ++ "/" ++ dockerProject ++ "_" ++ imageName
  let pullOpts : ImagePullOptions := { All := false, RegistryAuth := c.authStrSourceHub }
  match E.ImagePull c.cli ctx imageFullnameSourceHub pullOpts s0 with
  | (.error err, s1) =>
    ⟨.returned ("", some err),
      [.imagePull imageFullnameSourceHub pullOpts (.error err),
       .logPrintln ["fail to pull image: ", err.msg]], s1⟩
  | (.ok resp, s1) =>
    let tr1 : List (Event ρ) := [.imagePull imageFullnameSourceHub pullOpts (.ok resp)]
    match E.ReadAll resp s1 with
    | ((respBytes, some err), s2) =>
      ⟨.returned ("", some err),
        tr1 ++ [.readAll resp respBytes (some err),
                .logPrintln ["fail to read pull image resp: ", err.msg]], s2⟩
    | ((respBytes, none), s2) =>
      let tr2 := tr1 ++ [.readAll resp respBytes none]
      match logByte100 respBytes with
      | .error msg => ⟨.panicked msg, tr2, s2⟩
      | .ok line =>
        let s3 := E.Close resp s2
        let tr3 := tr2 ++ [line, .close resp]
        match E.ImageTag c.cli ctx imageFullnameSourceHub imageFullnameForwardHub s3 with
        | (some err, s4) =>
          ⟨.returned ("", some err),
            tr3 ++ [.imageTag imageFullnameSourceHub imageFullnameForwardHub (some err),
                    .logPrintln ["fail to tag image: ", err.msg]], s4⟩
        | (none, s4) =>
          let tr4 := tr3 ++ [.imageTag imageFullnameSourceHub imageFullnameForwardHub none]
          let pushOpts : ImagePushOptions := { RegistryAuth := c.authStrForwardHub }
          match E.ImagePush c.cli ctx imageFullnameForwardHub pushOpts s4 with
          | (.error err, s5) =>
            ⟨.returned ("", some err),
              tr4 ++ [.imagePush imageFullnameForwardHub pushOpts (.error err),
                      .logPrintln ["fail to push image: ", err.msg]], s5⟩
          | (.ok resp2, s5) =>
            let tr5 := tr4 ++ [.imagePush imageFullnameForwardHub pushOpts (.ok resp2)]
            match E.ReadAll resp2 s5 with
            | ((respBytes2, some err), s6) =>
              ⟨.returned ("", some err),
                tr5 ++ [.readAll resp2 respBytes2 (some err),
                        .logPrintln ["fail to read push image resp: ", err.msg]], s6⟩
            | ((respBytes2, none), s6) =>
              let tr6 := tr5 ++ [.readAll resp2 respBytes2 none]
              match logByte100 respBytes2 with
              | .error msg => ⟨.panicked msg, tr6, s6⟩
              | .ok line2 =>
                let s7 := E.Close resp2 s6
                let tr7 := tr6 ++ [line2, .close resp2]
                let rmOpts : ImageRemoveOptions := { Force := true, PruneChildren := true }
                match E.ImageRemove c.cli ctx imageFullnameForwardHub rmOpts s7 with
                | (some err, s8) =>
                  ⟨.returned ("", some err),
                    tr7 ++ [.imageRemove imageFullnameForwardHub rmOpts (some err),
                            .logPrintln ["fail to remove forwardHub image: ", err.msg]], s8⟩
                | (none, s8) =>
                  let tr8 := tr7 ++ [.imageRemove imageFullnameForwardHub rmOpts none]
                  match E.ImageRemove c.cli ctx imageFullnameSourceHub rmOpts s8 with
                  | (some err, s9) =>
                    ⟨.returned ("", some err),
                      tr8 ++ [.imageRemove imageFullnameSourceHub rmOpts (some err),
                              .logPrintln ["fail to remove sourceHub image: ", err.msg]], s9⟩
                  | (none, s9) =>
                    ⟨.returned (imageFullnameForwardHub, none),
                      tr8 ++ [.imageRemove imageFullnameSourceHub rmOpts none], s9⟩

/-- Source `CreateContainer` (api.go:143-159): `log.Fatal` on an error of the
engine (the process exits with status 1), else the response and a nil error. -/
def CreateContainer {σ κ χ ρ : Type} (E : Engine σ κ χ ρ) (c : DockerClient κ)
    (ctx : χ) (image : String) (cmds : List String) (s0 : σ) :
    Run (ContainerCreateCreatedBody × Option GoError) σ ρ :=
  let config : ContainerConfig := { Image := image, Cmd := cmds }
  match E.ContainerCreate c.cli ctx config s0 with
  | ((resp, some err), s1) =>
    ⟨.exited 1, [.containerCreate config resp (some err), .logFatal [err.msg]], s1⟩
  | ((resp, none), s1) =>
    ⟨.returned (resp, none), [.containerCreate config resp none], s1⟩

/-- Source `StartContainer` (api.go:162-188): start, wait for one of the two
channels, request the logs, copy them.  The value received from the status
channel is dropped, and so is the result of `stdcopy.StdCopy`. -/
def StartContainer {σ κ χ ρ : Type} (E : Engine σ κ χ ρ) (c : DockerClient κ)
    (ctx : χ) (createResp : ContainerCreateCreatedBody) (s0 : σ) :
    Run (Option GoError) σ ρ :=
  let startOpts : ContainerStartOptions := {}
  match E.ContainerStart c.cli ctx createResp.ID startOpts s0 with
  | (some err, s1) =>
    ⟨.exited 1, [.containerStart createResp.ID startOpts (some err), .logFatal [err.msg]], s1⟩
  | (none, s1) =>
    let tr1 : List (Event ρ) := [.containerStart createResp.ID startOpts none]
    let cond := WaitCondition.WaitConditionNotRunning
    match E.ContainerWait c.cli ctx createResp.ID cond s1 with
    | (.never, s2) => ⟨.blocked, tr1 ++ [.containerWait createResp.ID cond .never], s2⟩
    | (.errCh (some err), s2) =>
      ⟨.exited 1,
        tr1 ++ [.containerWait createResp.ID cond (.errCh (some err)), .logFatal [err.msg]], s2⟩
    | (signal, s2) =>
      let tr2 := tr1 ++ [.containerWait createResp.ID cond signal]
      let logsOpts : ContainerLogsOptions := { ShowStdout := true }
      match E.ContainerLogs c.cli ctx createResp.ID logsOpts s2 with
      | (.error err, s3) =>
        ⟨.exited 1,
          tr2 ++ [.containerLogs createResp.ID logsOpts (.error err), .logFatal [err.msg]], s3⟩
      | (.ok out, s3) =>
        match E.StdCopy out s3 with
        | (copyErr, s4) =>
          ⟨.returned none,
            tr2 ++ [.containerLogs createResp.ID logsOpts (.ok out), .stdCopy out copyErr], s4⟩

/-! ## Reading a trace -/

/-- An engine call without its result. -/
inductive Request where
  | imagePull (ref : String) (opts : ImagePullOptions)
  | imageTag (source target : String)
  | imagePush (ref : String) (opts : ImagePushOptions)
  | imageRemove (ref : String) (opts : ImageRemoveOptions)
  | containerCreate (config : ContainerConfig)
  | containerStart (id : String) (opts : ContainerStartOptions)
  | containerWait (id : String) (condition : WaitCondition)
  | containerLogs (id : String) (opts : ContainerLogsOptions)
  deriving DecidableEq, Repr

/-- The engine call an event records, if it records one. -/
def Event.request {ρ : Type} : Event ρ → Option Request
  | .imagePull ref opts _ => some (.imagePull ref opts)
  | .imageTag source target _ => some (.imageTag source target)
  | .imagePush ref opts _ => some (.imagePush ref opts)
  | .imageRemove ref opts _ => some (.imageRemove ref opts)
  | .containerCreate config _ _ => some (.containerCreate config)
  | .containerStart id opts _ => some (.containerStart id opts)
  | .containerWait id condition _ => some (.containerWait id condition)
  | .containerLogs id opts _ => some (.containerLogs id opts)
  | _ => none

/-- The engine calls of a trace, in order. -/
def requests {ρ : Type} (tr : List (Event ρ)) : List Request :=
  tr.filterMap Event.request

/-- A step of a run as seen from the engine: a call, or the read of a response
stream to its end. -/
inductive Step where
  | call (request : Request)
  | read
  deriving DecidableEq, Repr

/-- The step an event records, if it records one. -/
def Event.step {ρ : Type} : Event ρ → Option Step
  | .readAll _ _ _ => some .read
  | ev => ev.request.map .call

/-- The engine calls and the stream reads of a trace, in order. -/
def steps {ρ : Type} (tr : List (Event ρ)) : List Step :=
  tr.filterMap Event.step

/-- The error with which the engine call or the stream read of an event ended, if
it ended with one. -/
def Event.failure {ρ : Type} : Event ρ → Option GoError
  | .imagePull _ _ (.error err) => some err
  | .imageTag _ _ err => err
  | .imagePush _ _ (.error err) => some err
  | .imageRemove _ _ err => err
  | .containerCreate _ _ err => err
  | .containerStart _ _ err => err
  | .containerWait _ _ (.errCh err) => err
  | .containerLogs _ _ (.error err) => some err
  | .readAll _ _ err => err
  | _ => none

/-- An event with the exit status of a wait blanked out. -/
def Event.eraseStatus {ρ : Type} : Event ρ → Event ρ
  | .containerWait id condition (.statusCh _) => .containerWait id condition (.statusCh 0)
  | ev => ev

/-- The engine `E` with every exit status it delivers rewritten by `f`. -/
def Engine.mapStatus {σ κ χ ρ : Type} (E : Engine σ κ χ ρ) (f : Int → Int) : Engine σ κ χ ρ :=
  { E with
    ContainerWait := fun cli ctx id condition s =>
      match E.ContainerWait cli ctx id condition s with
      | (.statusCh code, s1) => (.statusCh (f code), s1)
      | other => other }

/-! ## A scripted engine for examples -/

/-- A stream of the scripted engine: its content and the error reading it ends with. -/
abbrev ScriptStream := List Nat × Option GoError

/-- The answers of a scripted engine. -/
structure Script where
  pull : Except GoError ScriptStream := .ok (List.replicate 101 0x7B, none)
  tag : Option GoError := none
  push : Except GoError ScriptStream := .ok (List.replicate 101 0x7B, none)
  removeForward : Option GoError := none
  removeSource : Option GoError := none
  create : ContainerCreateCreatedBody × Option GoError := ({ ID := "c0" }, none)
  start : Option GoError := none
  wait : WaitSignal := .statusCh 0
  logs : Except GoError ScriptStream := .ok ([], none)
  copy : Option GoError := none

/-- The engine that answers from a script.  Its state counts the calls of
`ImageRemove` (the first answers `removeForward`, the later ones `removeSource`)
and the streams closed. -/
def Script.engine (sc : Script) : Engine (Nat × Nat) Unit Unit ScriptStream where
  ImagePull := fun _ _ _ _ s => (sc.pull, s)
  ImageTag := fun _ _ _ _ s => (sc.tag, s)
  ImagePush := fun _ _ _ _ s => (sc.push, s)
  ImageRemove := fun _ _ _ _ s =>
    (if s.1 = 0 then sc.removeForward else sc.removeSource, (s.1 + 1, s.2))
  ContainerCreate := fun _ _ _ s => (sc.create, s)
  ContainerStart := fun _ _ _ _ s => (sc.start, s)
  ContainerWait := fun _ _ _ _ s => (sc.wait, s)
  ContainerLogs := fun _ _ _ _ s => (sc.logs, s)
  ReadAll := fun r s => (r, s)
  Close := fun _ s => (s.1, s.2 + 1)
  StdCopy := fun _ s => (sc.copy, s)

/-- The handle of the examples. -/
def exampleClient : DockerClient Unit :=
  { cli := ()
    forwardHubDomain := "fwd.io"
    authStrForwardHub := "fwd-token"
    sourceHubDomain := "src.io"
    authStrSourceHub := "src-token" }

/-- The error of the examples. -/
def exampleError : GoError := { msg := "engine says no" }

/-- The run of `TransferImageToForwardHub` for project "teama" and image "app" on
the engine of a script, from the state with no removal and no stream closed. -/
def exampleTransfer (sc : Script) : Run (String × Option GoError) (Nat × Nat) ScriptStream :=
  TransferImageToForwardHub sc.engine exampleClient () "teama" "app" (0, 0)

/-- The run of `StartContainer` for the container "c0" on the engine of a script. -/
def exampleStart (sc : Script) : Run (Option GoError) (Nat × Nat) ScriptStream :=
  StartContainer sc.engine exampleClient () { ID := "c0" } (0, 0)

/-- What `encodeState.string` writes for one character of a valid UTF-8 string:
the byte or its escape for ASCII, the escape for U+2028 and U+2029, the UTF-8
bytes otherwise. -/
def jsonRune (c : Char) : List Nat :=
  if c.toNat < 0x80 then
    if htmlSafeSet c.toNat then [c.toNat] else escapeByte c.toNat
  else if c.toNat = 0x2028 ∨ c.toNat = 0x2029 then
    [0x5C, 0x75, 0x32, 0x30, 0x32, hex (c.toNat % 16)]
  else utf8EncodeRune c.toNat

/-! ## Theorems -/

/-- The index expression panics exactly when the slice has no byte 100. -/
theorem logByte100_error {ρ : Type} {bytes : List Nat} {msg : String}
    (h : logByte100 bytes = (.error msg : Except String (Event ρ))) : bytes[100]? = none := by
  unfold logByte100 at h
  split at h
  · assumption
  · cases h

/-- When the index expression does not panic, one line is logged. -/
theorem logByte100_ok {ρ : Type} {bytes : List Nat} {ev : Event ρ}
    (h : logByte100 bytes = .ok ev) : ∃ line, ev = .logPrintln line := by
  unfold logByte100 at h
  split at h
  · cases h
  · cases h
    exact ⟨_, rfl⟩

/-- Every run of `TransferImageToForwardHub` is one of ten: a failure at one of
the seven places where an error is checked, a panic at one of the two index
expressions, or success. -/
theorem transfer_cases {σ κ χ ρ : Type} (E : Engine σ κ χ ρ) (c : DockerClient κ)
    (ctx : χ) (p i : String) (s0 : σ) :
    let src := c.sourceHubDomain ++ "/" ++ p ++ "/" ++ i
    let fwd := c.forwardHubDomain ++ "/" ++ p ++ "_" ++ i
    let pullOpts : ImagePullOptions := { All := false, RegistryAuth := c.authStrSourceHub }
    let pushOpts : ImagePushOptions := { RegistryAuth := c.authStrForwardHub }
    let rmOpts : ImageRemoveOptions := { Force := true, PruneChildren := true }
    let r := TransferImageToForwardHub E c ctx p i s0
    (∃ err, r.outcome = .returned ("", some err) ∧
      r.trace = [.imagePull src pullOpts (.error err),
                 .logPrintln ["fail to pull image: ", err.msg]]) ∨
    (∃ resp bytes err, r.outcome = .returned ("", some err) ∧
      r.trace = [.imagePull src pullOpts (.ok resp), .readAll resp bytes (some err),
                 .logPrintln ["fail to read pull image resp: ", err.msg]]) ∨
    (∃ resp bytes msg, bytes[100]? = none ∧ r.outcome = .panicked msg ∧
      r.trace = [.imagePull src pullOpts (.ok resp), .readAll resp bytes none]) ∨
    (∃ resp bytes line err, r.outcome = .returned ("", some err) ∧
      r.trace = [.imagePull src pullOpts (.ok resp), .readAll resp bytes none,
                 .logPrintln line, .close resp, .imageTag src fwd (some err),
                 .logPrintln ["fail to tag image: ", err.msg]]) ∨
    (∃ resp bytes line err, r.outcome = .returned ("", some err) ∧
      r.trace = [.imagePull src pullOpts (.ok resp), .readAll resp bytes none,
                 .logPrintln line, .close resp, .imageTag src fwd none,
                 .imagePush fwd pushOpts (.error err),
                 .logPrintln ["fail to push image: ", err.msg]]) ∨
    (∃ resp bytes line resp2 bytes2 err, r.outcome = .returned ("", some err) ∧
      r.trace = [.imagePull src pullOpts (.ok resp), .readAll resp bytes none,
                 .logPrintln line, .close resp, .imageTag src fwd none,
                 .imagePush fwd pushOpts (.ok resp2), .readAll resp2 bytes2 (some err),
                 .logPrintln ["fail to read push image resp: ", err.msg]]) ∨
    (∃ resp bytes line resp2 bytes2 msg, bytes2[100]? = none ∧ r.outcome = .panicked msg ∧
      r.trace = [.imagePull src pullOpts (.ok resp), .readAll resp bytes none,
                 .logPrintln line, .close resp, .imageTag src fwd none,
                 .imagePush fwd pushOpts (.ok resp2), .readAll resp2 bytes2 none]) ∨
    (∃ resp bytes line resp2 bytes2 line2 err, r.outcome = .returned ("", some err) ∧
      r.trace = [.imagePull src pullOpts (.ok resp), .readAll resp bytes none,
                 .logPrintln line, .close resp, .imageTag src fwd none,
                 .imagePush fwd pushOpts (.ok resp2), .readAll resp2 bytes2 none,
                 .logPrintln line2, .close resp2, .imageRemove fwd rmOpts (some err),
                 .logPrintln ["fail to remove forwardHub image: ", err.msg]]) ∨
    (∃ resp bytes line resp2 bytes2 line2 err, r.outcome = .returned ("", some err) ∧
      r.trace = [.imagePull src pullOpts (.ok resp), .readAll resp bytes none,
                 .logPrintln line, .close resp, .imageTag src fwd none,
                 .imagePush fwd pushOpts (.ok resp2), .readAll resp2 bytes2 none,
                 .logPrintln line2, .close resp2, .imageRemove fwd rmOpts none,
                 .imageRemove src rmOpts (some err),
                 .logPrintln ["fail to remove sourceHub image: ", err.msg]]) ∨
    (∃ resp bytes line resp2 bytes2 line2, r.outcome = .returned (fwd, none) ∧
      r.trace = [.imagePull src pullOpts (.ok resp), .readAll resp bytes none,
                 .logPrintln line, .close resp, .imageTag src fwd none,
                 .imagePush fwd pushOpts (.ok resp2), .readAll resp2 bytes2 none,
                 .logPrintln line2, .close resp2, .imageRemove fwd rmOpts none,
                 .imageRemove src rmOpts none]) := by
  intro src fwd pullOpts pushOpts rmOpts r
  simp only [r, src, fwd, pullOpts, pushOpts, rmOpts, TransferImageToForwardHub]
  split
  · exact Or.inl ⟨_, rfl, rfl⟩
  refine Or.inr ?_
  split
  · exact Or.inl ⟨_, _, _, rfl, rfl⟩
  refine Or.inr ?_
  split
  · rename_i hb
    exact Or.inl ⟨_, _, _, logByte100_error hb, rfl, rfl⟩
  refine Or.inr ?_
  rename_i hb
  obtain ⟨l1, rfl⟩ := logByte100_ok hb
  split
  · exact Or.inl ⟨_, _, _, _, rfl, rfl⟩
  refine Or.inr ?_
  split
  · exact Or.inl ⟨_, _, _, _, rfl, rfl⟩
  refine Or.inr ?_
  split
  · exact Or.inl ⟨_, _, _, _, _, _, rfl, rfl⟩
  refine Or.inr ?_
  split
  · rename_i hb2
    exact Or.inl ⟨_, _, _, _, _, _, logByte100_error hb2, rfl, rfl⟩
  refine Or.inr ?_
  rename_i hb2
  obtain ⟨l2, rfl⟩ := logByte100_ok hb2
  split
  · exact Or.inl ⟨_, _, _, _, _, _, _, rfl, rfl⟩
  refine Or.inr ?_
  split
  · exact Or.inl ⟨_, _, _, _, _, _, _, rfl, rfl⟩
  exact Or.inr ⟨_, _, _, _, _, _, rfl, rfl⟩

/-- No position of the empty list. -/
theorem splits_nil {α : Type} (Q : List α → α → List α → Prop) :
    (∀ pre ev post, ([] : List α) = pre ++ ev :: post → Q pre ev post) ↔ True := by
  constructor
  · intro _; trivial
  · intro _ pre ev post h
    cases pre <;> cases h

/-- The positions of `a :: l` are the head and the positions of `l`, each with
`a` in front of what precedes it. -/
theorem splits_cons {α : Type} (Q : List α → α → List α → Prop) (a : α) (l : List α) :
    (∀ pre ev post, a :: l = pre ++ ev :: post → Q pre ev post) ↔
      (Q [] a l ∧ ∀ pre ev post, l = pre ++ ev :: post → Q (a :: pre) ev post) := by
  constructor
  · intro h
    exact ⟨h [] a l rfl, fun pre ev post hl => h (a :: pre) ev post (by rw [hl]; rfl)⟩
  · rintro ⟨h0, h1⟩ pre ev post h
    cases pre with
    | nil =>
      simp only [List.nil_append, List.cons.injEq] at h
      obtain ⟨rfl, rfl⟩ := h
      exact h0
    | cons b pre =>
      simp only [List.cons_append, List.cons.injEq] at h
      obtain ⟨rfl, h⟩ := h
      exact h1 pre ev post h

/-- C1: the engine calls and stream reads of `TransferImageToForwardHub` are a
prefix of pull source, read its stream, tag source as forward, push forward, read
its stream, remove forward, remove source, and every read is of the stream the
call just before it handed back; after an engine call or a stream read that ends
with an error no further call or read is made and the call returns that error;
when the pull step fails (the pull call, or the read of its stream, which is the
first read), the pull is the only engine call. -/
theorem transfer_calls_in_order {σ κ χ ρ : Type} (E : Engine σ κ χ ρ) (c : DockerClient κ)
    (ctx : χ) (p i : String) (s0 : σ) :
    let src := c.sourceHubDomain ++ "/" ++ p ++ "/" ++ i
    let fwd := c.forwardHubDomain ++ "/" ++ p ++ "_" ++ i
    let pullOpts : ImagePullOptions := { All := false, RegistryAuth := c.authStrSourceHub }
    let pushOpts : ImagePushOptions := { RegistryAuth := c.authStrForwardHub }
    let rmOpts : ImageRemoveOptions := { Force := true, PruneChildren := true }
    let r := TransferImageToForwardHub E c ctx p i s0
    steps r.trace <+: [.call (.imagePull src pullOpts), .read, .call (.imageTag src fwd),
        .call (.imagePush fwd pushOpts), .read, .call (.imageRemove fwd rmOpts),
        .call (.imageRemove src rmOpts)] ∧
    requests r.trace <+: [.imagePull src pullOpts, .imageTag src fwd, .imagePush fwd pushOpts,
        .imageRemove fwd rmOpts, .imageRemove src rmOpts] ∧
    (∀ pre ev post, r.trace = pre ++ ev :: post → ∀ stream bytes err,
      ev = .readAll stream bytes err →
      pre.getLast? = some (.imagePull src pullOpts (.ok stream)) ∨
      pre.getLast? = some (.imagePush fwd pushOpts (.ok stream))) ∧
    (∀ pre ev post, r.trace = pre ++ ev :: post → ∀ err, ev.failure = some err →
      steps post = [] ∧ ∃ path, r.outcome = .returned (path, some err)) ∧
    (∀ pre ev post, r.trace = pre ++ ev :: post → ∀ err, ev.failure = some err →
      Step.read ∉ steps pre → requests r.trace = [.imagePull src pullOpts]) ∧
    (∀ ref opts err, Event.imagePull ref opts (.error err) ∈ r.trace →
      requests r.trace = [.imagePull src pullOpts]) := by
  intro src fwd pullOpts pushOpts rmOpts r
  have h := transfer_cases E c ctx p i s0
  simp only [] at h
  rcases h with ⟨err, ho, ht⟩ | ⟨resp, bytes, err, ho, ht⟩ | ⟨resp, bytes, msg, -, ho, ht⟩ |
    ⟨resp, bytes, line, err, ho, ht⟩ | ⟨resp, bytes, line, err, ho, ht⟩ |
    ⟨resp, bytes, line, resp2, bytes2, err, ho, ht⟩ |
    ⟨resp, bytes, line, resp2, bytes2, msg, -, ho, ht⟩ |
    ⟨resp, bytes, line, resp2, bytes2, line2, err, ho, ht⟩ |
    ⟨resp, bytes, line, resp2, bytes2, line2, err, ho, ht⟩ |
    ⟨resp, bytes, line, resp2, bytes2, line2, ho, ht⟩ <;>
  · simp only [r, ho, ht, splits_cons, splits_nil]
    simp [steps, Event.step, requests, Event.request, Event.failure, List.prefix_cons_iff,
      src, fwd, pullOpts, pushOpts, rmOpts]

/-- A run of C1 at a concrete input: the read of the pull stream fails; it is the
first read, and the pull is the only engine call. -/
theorem transfer_calls_in_order_witness :
    requests (exampleTransfer { pull := .ok ([0x7B], some exampleError) }).trace
      = [.imagePull "src.io/teama/app" { All := false, RegistryAuth := "src-token" }] :=
  (transfer_calls_in_order ({ pull := .ok ([0x7B], some exampleError) } : Script).engine
      exampleClient () "teama" "app" (0, 0)).2.2.2.2.1
    [.imagePull "src.io/teama/app" { All := false, RegistryAuth := "src-token" }
        (.ok ([0x7B], some exampleError))]
    (.readAll ([0x7B], some exampleError) [0x7B] (some exampleError))
    [.logPrintln ["fail to read pull image resp: ", "engine says no"]] rfl exampleError rfl
    (by decide)

/-- C2: whatever the four strings are, the first thing a run does is pull
`sourceHubDomain/project/imageName`; the engine calls are a prefix of that pull,
tag it as `forwardHubDomain/project_imageName`, push that, remove that, remove
the source reference; a run in which no call and no read ends with an error
either panics or makes all five calls and returns the forward reference with a
nil error, so no string is ever refused; a run that returns a nil error made all
five calls and returns the forward reference; and on a handle with the domains
"src.io" and "fwd.io", project "teamA" and image "app" give a pull of
"src.io/teamA/app", tagged as "fwd.io/teamA_app". -/
theorem transfer_image_references {σ κ χ ρ : Type} (E : Engine σ κ χ ρ) (c : DockerClient κ)
    (ctx : χ) (p i : String) (s0 : σ) :
    let r := TransferImageToForwardHub E c ctx p i s0
    let pullOpts : ImagePullOptions := { All := false, RegistryAuth := c.authStrSourceHub }
    let pushOpts : ImagePushOptions := { RegistryAuth := c.authStrForwardHub }
    let rmOpts : ImageRemoveOptions := { Force := true, PruneChildren := true }
    (∃ res, r.trace.head? =
      some (.imagePull (c.sourceHubDomain ++ "/" ++ p ++ "/" ++ i) pullOpts res)) ∧
    (requests r.trace <+:
      [.imagePull (c.sourceHubDomain ++ "/" ++ p ++ "/" ++ i) pullOpts,
       .imageTag (c.sourceHubDomain ++ "/" ++ p ++ "/" ++ i)
         (c.forwardHubDomain ++ "/" ++ p ++ "_" ++ i),
       .imagePush (c.forwardHubDomain ++ "/" ++ p ++ "_" ++ i) pushOpts,
       .imageRemove (c.forwardHubDomain ++ "/" ++ p ++ "_" ++ i) rmOpts,
       .imageRemove (c.sourceHubDomain ++ "/" ++ p ++ "/" ++ i) rmOpts]) ∧
    ((∀ ev ∈ r.trace, ev.failure = none) →
      (∃ msg, r.outcome = .panicked msg) ∨
      (r.outcome = .returned (c.forwardHubDomain ++ "/" ++ p ++ "_" ++ i, none) ∧
        requests r.trace =
          [.imagePull (c.sourceHubDomain ++ "/" ++ p ++ "/" ++ i) pullOpts,
           .imageTag (c.sourceHubDomain ++ "/" ++ p ++ "/" ++ i)
             (c.forwardHubDomain ++ "/" ++ p ++ "_" ++ i),
           .imagePush (c.forwardHubDomain ++ "/" ++ p ++ "_" ++ i) pushOpts,
           .imageRemove (c.forwardHubDomain ++ "/" ++ p ++ "_" ++ i) rmOpts,
           .imageRemove (c.sourceHubDomain ++ "/" ++ p ++ "/" ++ i) rmOpts])) ∧
    (∀ path, r.outcome = .returned (path, none) →
      path = c.forwardHubDomain ++ "/" ++ p ++ "_" ++ i ∧
      requests r.trace =
        [.imagePull (c.sourceHubDomain ++ "/" ++ p ++ "/" ++ i) pullOpts,
         .imageTag (c.sourceHubDomain ++ "/" ++ p ++ "/" ++ i)
           (c.forwardHubDomain ++ "/" ++ p ++ "_" ++ i),
         .imagePush (c.forwardHubDomain ++ "/" ++ p ++ "_" ++ i) pushOpts,
         .imageRemove (c.forwardHubDomain ++ "/" ++ p ++ "_" ++ i) rmOpts,
         .imageRemove (c.sourceHubDomain ++ "/" ++ p ++ "/" ++ i) rmOpts]) ∧
    (∀ (cli : κ) (tokenForward tokenSource : String),
      (∃ res, (TransferImageToForwardHub E
          { cli := cli, forwardHubDomain := "fwd.io", authStrForwardHub := tokenForward,
            sourceHubDomain := "src.io", authStrSourceHub := tokenSource }
          ctx "teamA" "app" s0).trace.head? =
        some (.imagePull "src.io/teamA/app"
          { All := false, RegistryAuth := tokenSource } res)) ∧
      (∀ source target err, Event.imageTag source target err ∈ (TransferImageToForwardHub E
          { cli := cli, forwardHubDomain := "fwd.io", authStrForwardHub := tokenForward,
            sourceHubDomain := "src.io", authStrSourceHub := tokenSource }
          ctx "teamA" "app" s0).trace →
        source = "src.io/teamA/app" ∧ target = "fwd.io/teamA_app")) := by
  intro r pullOpts pushOpts rmOpts
  refine ⟨?_, ?_, ?_, ?_, ?_⟩
  iterate 4
    · have h := transfer_cases E c ctx p i s0
      simp only [] at h
      rcases h with ⟨err, ho, ht⟩ | ⟨resp, bytes, err, ho, ht⟩ | ⟨resp, bytes, msg, -, ho, ht⟩ |
        ⟨resp, bytes, line, err, ho, ht⟩ | ⟨resp, bytes, line, err, ho, ht⟩ |
        ⟨resp, bytes, line, resp2, bytes2, err, ho, ht⟩ |
        ⟨resp, bytes, line, resp2, bytes2, msg, -, ho, ht⟩ |
        ⟨resp, bytes, line, resp2, bytes2, line2, err, ho, ht⟩ |
        ⟨resp, bytes, line, resp2, bytes2, line2, err, ho, ht⟩ |
        ⟨resp, bytes, line, resp2, bytes2, line2, ho, ht⟩ <;>
      · simp only [r, ho, ht]
        simp [requests, Event.request, Event.failure, List.prefix_cons_iff, pullOpts,
          pushOpts, rmOpts]
  · intro cli tokenForward tokenSource
    have e1 : "src.io" ++ "/" ++ "teamA" ++ "/" ++ "app" = "src.io/teamA/app" := by decide
    have e2 : "fwd.io" ++ "/" ++ "teamA" ++ "_" ++ "app" = "fwd.io/teamA_app" := by decide
    have h := transfer_cases E
      { cli := cli, forwardHubDomain := "fwd.io", authStrForwardHub := tokenForward,
        sourceHubDomain := "src.io", authStrSourceHub := tokenSource } ctx "teamA" "app" s0
    simp only [e1, e2] at h
    rcases h with ⟨err, ho, ht⟩ | ⟨resp, bytes, err, ho, ht⟩ | ⟨resp, bytes, msg, -, ho, ht⟩ |
      ⟨resp, bytes, line, err, ho, ht⟩ | ⟨resp, bytes, line, err, ho, ht⟩ |
      ⟨resp, bytes, line, resp2, bytes2, err, ho, ht⟩ |
      ⟨resp, bytes, line, resp2, bytes2, msg, -, ho, ht⟩ |
      ⟨resp, bytes, line, resp2, bytes2, line2, err, ho, ht⟩ |
      ⟨resp, bytes, line, resp2, bytes2, line2, err, ho, ht⟩ |
      ⟨resp, bytes, line, resp2, bytes2, line2, ho, ht⟩ <;>
    · simp only [ht]
      simp +contextual

/-- A run of C2 at a concrete input: on the scripted engine where nothing fails
and the streams are long enough, the run returns the forward reference after the
five calls. -/
theorem transfer_image_references_witness :
    (∃ msg, (exampleTransfer {}).outcome = .panicked msg) ∨
    ((exampleTransfer {}).outcome = .returned ("fwd.io/teama_app", none) ∧
      requests (exampleTransfer {}).trace =
        [.imagePull "src.io/teama/app" { All := false, RegistryAuth := "src-token" },
         .imageTag "src.io/teama/app" "fwd.io/teama_app",
         .imagePush "fwd.io/teama_app" { RegistryAuth := "fwd-token" },
         .imageRemove "fwd.io/teama_app" { Force := true, PruneChildren := true },
         .imageRemove "src.io/teama/app" { Force := true, PruneChildren := true }]) :=
  (transfer_image_references ({} : Script).engine exampleClient () "teama" "app"
    (0, 0)).2.2.1
    (by
      intro ev hev
      simp [TransferImageToForwardHub, Script.engine, exampleClient, logByte100] at hev
      rcases hev with rfl | rfl | rfl | rfl | rfl | rfl | rfl | rfl | rfl | rfl | rfl <;> rfl)

/-- C3: when the pull succeeds and its stream is read without error but holds at
most 100 bytes, the run ends in a run-time panic at the index expression, after
the pull and the read and before any other engine call; nothing is returned. -/
theorem transfer_panics_on_short_stream {σ κ χ ρ : Type} (E : Engine σ κ χ ρ)
    (c : DockerClient κ) (ctx : χ) (p i : String) (s0 s1 s2 : σ) (resp : ρ) (bytes : List Nat)
    (hpull : E.ImagePull c.cli ctx (c.sourceHubDomain ++ "/" ++ p ++ "/" ++ i)
      { All := false, RegistryAuth := c.authStrSourceHub } s0 = (.ok resp, s1))
    (hread : E.ReadAll resp s1 = ((bytes, none), s2))
    (hlen : bytes.length ≤ 100) :
    let r := TransferImageToForwardHub E c ctx p i s0
    r.outcome = .panicked "runtime error: index out of range" ∧
    r.trace = [.imagePull (c.sourceHubDomain ++ "/" ++ p ++ "/" ++ i)
                 { All := false, RegistryAuth := c.authStrSourceHub } (.ok resp),
               .readAll resp bytes none] := by
  intro r
  have hb : bytes[100]? = none := List.getElem?_eq_none hlen
  simp [r, TransferImageToForwardHub, hpull, hread, logByte100, hb]

/-- The failing input of C3: every engine call succeeds and the pull stream is
empty; the run panics instead of returning the forward reference. -/
theorem transfer_panics_on_short_stream_witness :
    (exampleTransfer { pull := .ok ([], none) }).outcome
      = .panicked "runtime error: index out of range" ∧
    (exampleTransfer { pull := .ok ([], none) }).trace
      = [.imagePull "src.io/teama/app" { All := false, RegistryAuth := "src-token" }
           (.ok ([], none)),
         .readAll ([], none) [] none] :=
  transfer_panics_on_short_stream ({ pull := .ok ([], none) } : Script).engine
    exampleClient () "teama" "app" (0, 0) (0, 0) (0, 0) ([], none) [] rfl rfl (by decide)

/-- C4 as stated fails: the removal of the forward image fails after a
successful push, and the path returned is empty, not the forward reference. -/
theorem transfer_remove_failure_path_counterexample :
    Event.imagePush "fwd.io/teama_app" { RegistryAuth := "fwd-token" }
        (.ok (List.replicate 101 0x7B, none))
      ∈ (exampleTransfer { removeForward := some exampleError }).trace ∧
    Event.imageRemove "fwd.io/teama_app" { Force := true, PruneChildren := true }
        (some exampleError)
      ∈ (exampleTransfer { removeForward := some exampleError }).trace ∧
    (exampleTransfer { removeForward := some exampleError }).outcome
      = .returned ("", some exampleError) ∧
    (exampleTransfer { removeForward := some exampleError }).outcome
      ≠ .returned ("fwd.io/teama_app", some exampleError) := by
  refine ⟨?_, ?_, rfl, ?_⟩ <;>
  simp [exampleTransfer, TransferImageToForwardHub, Script.engine, exampleClient, logByte100]

/-- C4, amended: if one of the two remove calls ends with an error, pull, tag and
push were made and succeeded, the remove is the last engine call, the error
returned is the error of that remove, and the path returned is the empty
string. -/
theorem transfer_remove_failure {σ κ χ ρ : Type} (E : Engine σ κ χ ρ) (c : DockerClient κ)
    (ctx : χ) (p i : String) (s0 : σ) (ref : String) (opts : ImageRemoveOptions)
    (err : GoError)
    (h : Event.imageRemove ref opts (some err) ∈ (TransferImageToForwardHub E c ctx p i s0).trace) :
    let r := TransferImageToForwardHub E c ctx p i s0
    r.outcome = .returned ("", some err) ∧
    (∃ resp, Event.imagePush (c.forwardHubDomain ++ "/" ++ p ++ "_" ++ i)
      { RegistryAuth := c.authStrForwardHub } (.ok resp) ∈ r.trace) ∧
    Event.imageTag (c.sourceHubDomain ++ "/" ++ p ++ "/" ++ i)
      (c.forwardHubDomain ++ "/" ++ p ++ "_" ++ i) none ∈ r.trace ∧
    (requests r.trace).getLast? = some (.imageRemove ref opts) := by
  intro r
  have hc := transfer_cases E c ctx p i s0
  simp only [] at hc
  rcases hc with ⟨e, ho, ht⟩ | ⟨resp, bytes, e, ho, ht⟩ | ⟨resp, bytes, msg, -, ho, ht⟩ |
    ⟨resp, bytes, line, e, ho, ht⟩ | ⟨resp, bytes, line, e, ho, ht⟩ |
    ⟨resp, bytes, line, resp2, bytes2, e, ho, ht⟩ |
    ⟨resp, bytes, line, resp2, bytes2, msg, -, ho, ht⟩ |
    ⟨resp, bytes, line, resp2, bytes2, line2, e, ho, ht⟩ |
    ⟨resp, bytes, line, resp2, bytes2, line2, e, ho, ht⟩ |
    ⟨resp, bytes, line, resp2, bytes2, line2, ho, ht⟩ <;>
  · simp only [r, ho, ht] at h ⊢
    simp at h
    try (obtain ⟨rfl, rfl, rfl⟩ := h)
    try simp [requests, Event.request]

/-- A run of the amended C4 at a concrete input: the removal of the source image
fails. -/
theorem transfer_remove_failure_witness :
    (exampleTransfer { removeSource := some exampleError }).outcome
      = .returned ("", some exampleError) ∧
    (∃ resp, Event.imagePush "fwd.io/teama_app" { RegistryAuth := "fwd-token" } (.ok resp)
      ∈ (exampleTransfer { removeSource := some exampleError }).trace) ∧
    Event.imageTag "src.io/teama/app" "fwd.io/teama_app" none
      ∈ (exampleTransfer { removeSource := some exampleError }).trace ∧
    (requests (exampleTransfer { removeSource := some exampleError }).trace).getLast? =
      some (.imageRemove "src.io/teama/app" { Force := true, PruneChildren := true }) :=
  transfer_remove_failure ({ removeSource := some exampleError } : Script).engine
    exampleClient () "teama" "app" (0, 0) "src.io/teama/app"
    { Force := true, PruneChildren := true } exampleError
    (by simp [TransferImageToForwardHub, Script.engine, exampleClient, logByte100])

/-- C7: when the pull succeeds and reading its stream ends with an error, the
call returns that error without closing the stream: the trace holds no close
event and the engine is left in the state the read left it in. -/
theorem transfer_read_error_leaves_stream_open {σ κ χ ρ : Type} (E : Engine σ κ χ ρ)
    (c : DockerClient κ) (ctx : χ) (p i : String) (s0 s1 s2 : σ) (resp : ρ) (bytes : List Nat)
    (err : GoError)
    (hpull : E.ImagePull c.cli ctx (c.sourceHubDomain ++ "/" ++ p ++ "/" ++ i)
      { All := false, RegistryAuth := c.authStrSourceHub } s0 = (.ok resp, s1))
    (hread : E.ReadAll resp s1 = ((bytes, some err), s2)) :
    let r := TransferImageToForwardHub E c ctx p i s0
    r.outcome = .returned ("", some err) ∧
    (∀ stream, Event.close stream ∉ r.trace) ∧
    r.state = s2 := by
  intro r
  simp [r, TransferImageToForwardHub, hpull, hread]

/-- The failing input of C7: the pull hands back a stream whose read fails; the
stream is never closed (the count of closed streams stays 0). -/
theorem transfer_read_error_leaves_stream_open_witness :
    (exampleTransfer { pull := .ok ([0x7B], some exampleError) }).outcome
      = .returned ("", some exampleError) ∧
    (∀ stream, Event.close stream
      ∉ (exampleTransfer { pull := .ok ([0x7B], some exampleError) }).trace) ∧
    (exampleTransfer { pull := .ok ([0x7B], some exampleError) }).state = (0, 0) :=
  transfer_read_error_leaves_stream_open
    ({ pull := .ok ([0x7B], some exampleError) } : Script).engine
    exampleClient () "teama" "app" (0, 0) (0, 0) (0, 0) ([0x7B], some exampleError) [0x7B]
    exampleError rfl rfl

/-- C8 as stated fails: a run whose pull fails and a run whose tag fails, with
the same engine error, return the same value. -/
theorem transfer_error_untagged_counterexample :
    Event.imagePull "src.io/teama/app" { All := false, RegistryAuth := "src-token" }
        (.error exampleError)
      ∈ (exampleTransfer { pull := .error exampleError }).trace ∧
    Event.imageTag "src.io/teama/app" "fwd.io/teama_app" (some exampleError)
      ∈ (exampleTransfer { tag := some exampleError }).trace ∧
    (exampleTransfer { pull := .error exampleError }).outcome
      = (exampleTransfer { tag := some exampleError }).outcome := by
  refine ⟨?_, ?_, rfl⟩ <;>
  simp [exampleTransfer, TransferImageToForwardHub, Script.engine, exampleClient, logByte100]

/-- C8, amended: when an engine call or a stream read of the transfer ends with
an error, the call returns exactly that error, with an empty path and no tag of
the step; the step is named only by the one line logged after the failure, whose
first operand is the label of that step (pull, read of the pull stream, tag, push,
read of the push stream, removal of the forward image, removal of the source
image) and whose second operand is the text of the error. -/
theorem transfer_returns_underlying_error {σ κ χ ρ : Type} (E : Engine σ κ χ ρ)
    (c : DockerClient κ) (ctx : χ) (p i : String) (s0 : σ) :
    let src := c.sourceHubDomain ++ "/" ++ p ++ "/" ++ i
    let fwd := c.forwardHubDomain ++ "/" ++ p ++ "_" ++ i
    let pullOpts : ImagePullOptions := { All := false, RegistryAuth := c.authStrSourceHub }
    let pushOpts : ImagePushOptions := { RegistryAuth := c.authStrForwardHub }
    let rmOpts : ImageRemoveOptions := { Force := true, PruneChildren := true }
    let r := TransferImageToForwardHub E c ctx p i s0
    ∀ pre ev post, r.trace = pre ++ ev :: post → ∀ err, ev.failure = some err →
      r.outcome = .returned ("", some err) ∧
      ((ev = .imagePull src pullOpts (.error err) ∧ requests pre = [] ∧
          post = [.logPrintln ["fail to pull image: ", err.msg]]) ∨
       (∃ stream bytes, ev = .readAll stream bytes (some err) ∧
          requests pre = [.imagePull src pullOpts] ∧
          post = [.logPrintln ["fail to read pull image resp: ", err.msg]]) ∨
       (ev = .imageTag src fwd (some err) ∧ requests pre = [.imagePull src pullOpts] ∧
          post = [.logPrintln ["fail to tag image: ", err.msg]]) ∨
       (ev = .imagePush fwd pushOpts (.error err) ∧
          requests pre = [.imagePull src pullOpts, .imageTag src fwd] ∧
          post = [.logPrintln ["fail to push image: ", err.msg]]) ∨
       (∃ stream bytes, ev = .readAll stream bytes (some err) ∧
          requests pre = [.imagePull src pullOpts, .imageTag src fwd, .imagePush fwd pushOpts] ∧
          post = [.logPrintln ["fail to read push image resp: ", err.msg]]) ∨
       (ev = .imageRemove fwd rmOpts (some err) ∧
          requests pre = [.imagePull src pullOpts, .imageTag src fwd, .imagePush fwd pushOpts] ∧
          post = [.logPrintln ["fail to remove forwardHub image: ", err.msg]]) ∨
       (ev = .imageRemove src rmOpts (some err) ∧
          requests pre = [.imagePull src pullOpts, .imageTag src fwd, .imagePush fwd pushOpts,
            .imageRemove fwd rmOpts] ∧
          post = [.logPrintln ["fail to remove sourceHub image: ", err.msg]])) := by
  intro src fwd pullOpts pushOpts rmOpts r
  have h := transfer_cases E c ctx p i s0
  simp only [] at h
  rcases h with ⟨err, ho, ht⟩ | ⟨resp, bytes, err, ho, ht⟩ | ⟨resp, bytes, msg, -, ho, ht⟩ |
    ⟨resp, bytes, line, err, ho, ht⟩ | ⟨resp, bytes, line, err, ho, ht⟩ |
    ⟨resp, bytes, line, resp2, bytes2, err, ho, ht⟩ |
    ⟨resp, bytes, line, resp2, bytes2, msg, -, ho, ht⟩ |
    ⟨resp, bytes, line, resp2, bytes2, line2, err, ho, ht⟩ |
    ⟨resp, bytes, line, resp2, bytes2, line2, err, ho, ht⟩ |
    ⟨resp, bytes, line, resp2, bytes2, line2, ho, ht⟩ <;>
  · simp only [r, ho, ht, splits_cons, splits_nil]
    simp +contextual [Event.failure, requests, Event.request, src, fwd, pullOpts, pushOpts,
      rmOpts]

/-- A run of the amended C8 at a concrete input: the push fails, its error is
returned as it is, and the line logged is the one of the push. -/
theorem transfer_returns_underlying_error_witness :
    (exampleTransfer { push := .error exampleError }).outcome
      = .returned ("", some exampleError) :=
  (transfer_returns_underlying_error ({ push := .error exampleError } : Script).engine
    exampleClient () "teama" "app" (0, 0)
    [.imagePull "src.io/teama/app" { All := false, RegistryAuth := "src-token" }
        (.ok (List.replicate 101 0x7B, none)),
     .readAll (List.replicate 101 0x7B, none) (List.replicate 101 0x7B) none,
     .logPrintln ["\x7b"], .close (List.replicate 101 0x7B, none),
     .imageTag "src.io/teama/app" "fwd.io/teama_app" none]
    (.imagePush "fwd.io/teama_app" { RegistryAuth := "fwd-token" } (.error exampleError))
    [.logPrintln ["fail to push image: ", "engine says no"]] rfl exampleError rfl).1

/-- C6: a handle returned by `NewDockerClient` holds the two domains it was
given; every transfer on it starts with a pull whose options are `All = false`
and the token of the source credentials, every pull event carries these options,
and every push event carries the token of the forward credentials. -/
theorem new_client_credentials {σ κ χ ρ : Type}
    (newClient : String → String → HTTPTransport → Except GoError κ)
    (daemonHost daemonAPIVersion fd fu fp sd su sp : String) (c : DockerClient κ)
    (hnew : (NewDockerClient newClient daemonHost daemonAPIVersion fd fu fp sd su sp).1.1
      = some c)
    (E : Engine σ κ χ ρ) (ctx : χ) (p i : String) (s0 : σ) :
    c.forwardHubDomain = fd ∧ c.sourceHubDomain = sd ∧
    (∃ ref res, (TransferImageToForwardHub E c ctx p i s0).trace.head? =
      some (.imagePull ref { All := false, RegistryAuth := genAuthStr su sp } res)) ∧
    (∀ ref opts res, Event.imagePull ref opts res ∈ (TransferImageToForwardHub E c ctx p i s0).trace
      → opts = { All := false, RegistryAuth := genAuthStr su sp }) ∧
    (∀ ref opts res, Event.imagePush ref opts res ∈ (TransferImageToForwardHub E c ctx p i s0).trace
      → opts = { RegistryAuth := genAuthStr fu fp }) := by
  have hc : c.forwardHubDomain = fd ∧ c.sourceHubDomain = sd ∧
      c.authStrSourceHub = genAuthStr su sp ∧ c.authStrForwardHub = genAuthStr fu fp := by
    unfold NewDockerClient at hnew
    dsimp only at hnew
    split at hnew
    · simp at hnew
    · simp only [Option.some.injEq] at hnew
      subst hnew
      exact ⟨rfl, rfl, rfl, rfl⟩
  obtain ⟨h1, h2, h3, h4⟩ := hc
  refine ⟨h1, h2, ?_⟩
  have h := transfer_cases E c ctx p i s0
  simp only [] at h
  rw [h3, h4] at h
  rcases h with ⟨err, ho, ht⟩ | ⟨resp, bytes, err, ho, ht⟩ | ⟨resp, bytes, msg, -, ho, ht⟩ |
    ⟨resp, bytes, line, err, ho, ht⟩ | ⟨resp, bytes, line, err, ho, ht⟩ |
    ⟨resp, bytes, line, resp2, bytes2, err, ho, ht⟩ |
    ⟨resp, bytes, line, resp2, bytes2, msg, -, ho, ht⟩ |
    ⟨resp, bytes, line, resp2, bytes2, line2, err, ho, ht⟩ |
    ⟨resp, bytes, line, resp2, bytes2, line2, err, ho, ht⟩ |
    ⟨resp, bytes, line, resp2, bytes2, line2, ho, ht⟩ <;>
  · simp only [ht]
    simp +contextual

/-- A run of C6 at a concrete input: a client that connects, and a transfer on
the handle with the scripted engine that succeeds. -/
theorem new_client_credentials_witness :
    "fwd.io" = "fwd.io" ∧ "src.io" = "src.io" ∧
    (∃ ref res, (TransferImageToForwardHub ({} : Script).engine
      { cli := (), forwardHubDomain := "fwd.io", authStrForwardHub := genAuthStr "fu" "fp",
        sourceHubDomain := "src.io", authStrSourceHub := genAuthStr "su" "sp" }
      () "teama" "app" (0, 0)).trace.head? =
      some (.imagePull ref { All := false, RegistryAuth := genAuthStr "su" "sp" } res)) ∧
    (∀ ref opts res, Event.imagePull ref opts res ∈ (TransferImageToForwardHub ({} : Script).engine
      { cli := (), forwardHubDomain := "fwd.io", authStrForwardHub := genAuthStr "fu" "fp",
        sourceHubDomain := "src.io", authStrSourceHub := genAuthStr "su" "sp" }
      () "teama" "app" (0, 0)).trace
      → opts = { All := false, RegistryAuth := genAuthStr "su" "sp" }) ∧
    (∀ ref opts res, Event.imagePush ref opts res ∈ (TransferImageToForwardHub ({} : Script).engine
      { cli := (), forwardHubDomain := "fwd.io", authStrForwardHub := genAuthStr "fu" "fp",
        sourceHubDomain := "src.io", authStrSourceHub := genAuthStr "su" "sp" }
      () "teama" "app" (0, 0)).trace
      → opts = { RegistryAuth := genAuthStr "fu" "fp" }) :=
  new_client_credentials (fun _ _ _ => .ok ()) "localhost:2375" "1.30"
    "fwd.io" "fu" "fp" "src.io" "su" "sp" _ rfl ({} : Script).engine () "teama" "app" (0, 0)

/-- The exit status is never inspected: rewriting the exit statuses an engine
delivers changes neither how `StartContainer` ends, nor the engine state it
leaves, nor its trace apart from the status recorded in the wait event. -/
theorem start_status_irrelevant {σ κ χ ρ : Type} (E : Engine σ κ χ ρ) (f : Int → Int)
    (c : DockerClient κ) (ctx : χ) (createResp : ContainerCreateCreatedBody) (s0 : σ) :
    (StartContainer (E.mapStatus f) c ctx createResp s0).outcome
      = (StartContainer E c ctx createResp s0).outcome ∧
    (StartContainer (E.mapStatus f) c ctx createResp s0).state
      = (StartContainer E c ctx createResp s0).state ∧
    (StartContainer (E.mapStatus f) c ctx createResp s0).trace.map Event.eraseStatus
      = (StartContainer E c ctx createResp s0).trace.map Event.eraseStatus := by
  rcases h1 : E.ContainerStart c.cli ctx createResp.ID {} s0 with ⟨_ | e, s1⟩
  · rcases h2 : E.ContainerWait c.cli ctx createResp.ID .WaitConditionNotRunning s1
      with ⟨sig, s2⟩
    rcases h3 : E.ContainerLogs c.cli ctx createResp.ID { ShowStdout := true } s2
      with ⟨e | out, s3⟩ <;>
    rcases sig with (_ | e) | code | _ <;>
    simp [StartContainer, Engine.mapStatus, h1, h2, h3, Event.eraseStatus]
  · simp [StartContainer, Engine.mapStatus, h1, Event.eraseStatus]

/-- C9: when the start succeeds, the wait delivers an exit status and the logs
request succeeds, `StartContainer` makes exactly the calls start, wait, logs with
`ShowStdout` set, copies the stream, and returns a nil error whatever the copy
returned; and the same run with any other exit status ends the same way, in the
same engine state, with the same engine calls and the same trace apart from the
status recorded in the wait event. -/
theorem start_container_ignores_status {σ κ χ ρ : Type} (E : Engine σ κ χ ρ)
    (c : DockerClient κ) (ctx : χ) (createResp : ContainerCreateCreatedBody)
    (s0 s1 s2 s3 : σ) (code : Int) (out : ρ)
    (hstart : E.ContainerStart c.cli ctx createResp.ID {} s0 = (none, s1))
    (hwait : E.ContainerWait c.cli ctx createResp.ID .WaitConditionNotRunning s1
      = (.statusCh code, s2))
    (hlogs : E.ContainerLogs c.cli ctx createResp.ID { ShowStdout := true } s2
      = (.ok out, s3)) :
    (StartContainer E c ctx createResp s0).outcome = .returned none ∧
    (StartContainer E c ctx createResp s0).trace =
      [.containerStart createResp.ID {} none,
       .containerWait createResp.ID .WaitConditionNotRunning (.statusCh code),
       .containerLogs createResp.ID { ShowStdout := true } (.ok out),
       .stdCopy out (E.StdCopy out s3).1] ∧
    (StartContainer E c ctx createResp s0).state = (E.StdCopy out s3).2 ∧
    ∀ f : Int → Int,
      (StartContainer (E.mapStatus f) c ctx createResp s0).outcome = .returned none ∧
      (StartContainer (E.mapStatus f) c ctx createResp s0).state
        = (StartContainer E c ctx createResp s0).state ∧
      requests (StartContainer (E.mapStatus f) c ctx createResp s0).trace
        = requests (StartContainer E c ctx createResp s0).trace ∧
      (StartContainer (E.mapStatus f) c ctx createResp s0).trace =
        [.containerStart createResp.ID {} none,
         .containerWait createResp.ID .WaitConditionNotRunning (.statusCh (f code)),
         .containerLogs createResp.ID { ShowStdout := true } (.ok out),
         .stdCopy out (E.StdCopy out s3).1] := by
  have hrun : StartContainer E c ctx createResp s0 =
      ⟨.returned none,
       [.containerStart createResp.ID {} none,
        .containerWait createResp.ID .WaitConditionNotRunning (.statusCh code),
        .containerLogs createResp.ID { ShowStdout := true } (.ok out),
        .stdCopy out (E.StdCopy out s3).1], (E.StdCopy out s3).2⟩ := by
    simp [StartContainer, hstart, hwait, hlogs]
  have hrun2 : ∀ f : Int → Int, StartContainer (E.mapStatus f) c ctx createResp s0 =
      ⟨.returned none,
       [.containerStart createResp.ID {} none,
        .containerWait createResp.ID .WaitConditionNotRunning (.statusCh (f code)),
        .containerLogs createResp.ID { ShowStdout := true } (.ok out),
        .stdCopy out (E.StdCopy out s3).1], (E.StdCopy out s3).2⟩ := by
    intro f
    simp [StartContainer, Engine.mapStatus, hstart, hwait, hlogs]
  refine ⟨by rw [hrun], by rw [hrun], by rw [hrun], fun f => ?_⟩
  rw [hrun2 f, hrun]
  simp [requests, Event.request]

/-- A run of C9 at a concrete input: the container exits with status 3, the log
copy fails, and `StartContainer` returns nil all the same. -/
theorem start_container_ignores_status_witness :
    (exampleStart { wait := .statusCh 3, copy := some exampleError }).outcome
      = .returned none ∧
    (exampleStart { wait := .statusCh 3, copy := some exampleError }).trace =
      [.containerStart "c0" {} none,
       .containerWait "c0" .WaitConditionNotRunning (.statusCh 3),
       .containerLogs "c0" { ShowStdout := true } (.ok ([], none)),
       .stdCopy ([], none) (some exampleError)] :=
  ⟨(start_container_ignores_status
      ({ wait := .statusCh 3, copy := some exampleError } : Script).engine exampleClient ()
      { ID := "c0" } (0, 0) (0, 0) (0, 0) (0, 0) 3 ([], none) rfl rfl rfl).1,
   (start_container_ignores_status
      ({ wait := .statusCh 3, copy := some exampleError } : Script).engine exampleClient ()
      { ID := "c0" } (0, 0) (0, 0) (0, 0) (0, 0) 3 ([], none) rfl rfl rfl).2.1⟩

/-- C10: `CreateContainer` ends the process with status 1 when the create call
fails; `StartContainer` ends it when the start call fails, with no wait and no
logs call, and when the wait delivers a non-nil error, with no logs call; and
whenever either function returns, the error it returns is nil. -/
theorem create_start_failures_fatal {σ κ χ ρ : Type} (E : Engine σ κ χ ρ)
    (c : DockerClient κ) (ctx : χ) :
    (∀ image cmds s0 resp err s1,
      E.ContainerCreate c.cli ctx { Image := image, Cmd := cmds } s0 = ((resp, some err), s1) →
      (CreateContainer E c ctx image cmds s0).outcome = .exited 1) ∧
    (∀ createResp s0 err s1,
      E.ContainerStart c.cli ctx createResp.ID {} s0 = (some err, s1) →
      (StartContainer E c ctx createResp s0).outcome = .exited 1 ∧
      requests (StartContainer E c ctx createResp s0).trace
        = [.containerStart createResp.ID {}]) ∧
    (∀ createResp s0 s1 err s2,
      E.ContainerStart c.cli ctx createResp.ID {} s0 = (none, s1) →
      E.ContainerWait c.cli ctx createResp.ID .WaitConditionNotRunning s1
        = (.errCh (some err), s2) →
      (StartContainer E c ctx createResp s0).outcome = .exited 1 ∧
      requests (StartContainer E c ctx createResp s0).trace
        = [.containerStart createResp.ID {},
           .containerWait createResp.ID .WaitConditionNotRunning]) ∧
    (∀ image cmds s0 value,
      (CreateContainer E c ctx image cmds s0).outcome = .returned value → value.2 = none) ∧
    (∀ createResp s0 value,
      (StartContainer E c ctx createResp s0).outcome = .returned value → value = none) := by
  refine ⟨?_, ?_, ?_, ?_, ?_⟩
  · intro image cmds s0 resp err s1 h
    simp [CreateContainer, h]
  · intro createResp s0 err s1 h
    simp [StartContainer, h, requests, Event.request]
  · intro createResp s0 s1 err s2 h1 h2
    simp [StartContainer, h1, h2, requests, Event.request]
  · intro image cmds s0 value h
    rcases h1 : E.ContainerCreate c.cli ctx { Image := image, Cmd := cmds } s0
      with ⟨⟨resp, _ | e⟩, s1⟩
    · simp [CreateContainer, h1] at h
      rw [← h]
    · simp [CreateContainer, h1] at h
  · intro createResp s0 value h
    rcases h1 : E.ContainerStart c.cli ctx createResp.ID {} s0 with ⟨_ | e, s1⟩
    · rcases h2 : E.ContainerWait c.cli ctx createResp.ID .WaitConditionNotRunning s1
        with ⟨sig, s2⟩
      rcases h3 : E.ContainerLogs c.cli ctx createResp.ID { ShowStdout := true } s2
        with ⟨e | out, s3⟩ <;>
      rcases sig with (_ | e) | code | _ <;>
      simp [StartContainer, h1, h2, h3] at h <;>
      exact h.symm
    · simp [StartContainer, h1] at h

/-- A run of C10 at a concrete input: the wait delivers an error, the process
exits with status 1 and the logs are never requested. -/
theorem create_start_failures_fatal_witness :
    (exampleStart { wait := .errCh (some exampleError) }).outcome = .exited 1 ∧
    requests (exampleStart { wait := .errCh (some exampleError) }).trace
      = [.containerStart "c0" {}, .containerWait "c0" .WaitConditionNotRunning] :=
  (create_start_failures_fatal ({ wait := .errCh (some exampleError) } : Script).engine
    exampleClient ()).2.2.1 { ID := "c0" } (0, 0) (0, 0) exampleError (0, 0) rfl rfl

/-! ### base64 -/

/-- The decode table inverts the alphabet, and no character of the alphabet is
the padding or a line break. -/
theorem decodeDigit_encodeDigit (n : Nat) (h : n < 64) :
    decodeDigit (encodeDigit n) = some n ∧ encodeDigit n ≠ '=' ∧
      encodeDigit n ≠ '\r' ∧ encodeDigit n ≠ '\n' := by
  interval_cases n <;> decide

/-- No line break in an encoded text. -/
theorem base64Encode_no_line_break (bs : List Nat) :
    ∀ ch ∈ base64Encode bs, ch ≠ '\r' ∧ ch ≠ '\n' := by
  induction bs using base64Encode.induct with
  | case1 a b c rest ih =>
    intro ch hch
    simp only [base64Encode, List.cons_append, List.nil_append, List.mem_cons] at hch
    rcases hch with rfl | rfl | rfl | rfl | hch
    · exact (decodeDigit_encodeDigit _ (Nat.mod_lt _ (by decide))).2.2
    · exact (decodeDigit_encodeDigit _ (Nat.mod_lt _ (by decide))).2.2
    · exact (decodeDigit_encodeDigit _ (Nat.mod_lt _ (by decide))).2.2
    · exact (decodeDigit_encodeDigit _ (Nat.mod_lt _ (by decide))).2.2
    · exact ih ch hch
  | case2 a b =>
    intro ch hch
    simp only [base64Encode, List.mem_cons, List.mem_singleton, List.not_mem_nil, or_false] at hch
    rcases hch with rfl | rfl | rfl | rfl
    · exact (decodeDigit_encodeDigit _ (Nat.mod_lt _ (by decide))).2.2
    · exact (decodeDigit_encodeDigit _ (Nat.mod_lt _ (by decide))).2.2
    · exact (decodeDigit_encodeDigit _ (Nat.mod_lt _ (by decide))).2.2
    · decide
  | case3 a =>
    intro ch hch
    simp only [base64Encode, List.mem_cons, List.mem_singleton, List.not_mem_nil, or_false] at hch
    rcases hch with rfl | rfl | rfl | rfl
    · exact (decodeDigit_encodeDigit _ (Nat.mod_lt _ (by decide))).2.2
    · exact (decodeDigit_encodeDigit _ (Nat.mod_lt _ (by decide))).2.2
    · decide
    · decide
  | case4 => intro ch hch; simp [base64Encode] at hch

/-- Decoding the groups of an encoded byte sequence gives the bytes back. -/
theorem base64DecodeQuanta_encode (bs : List Nat) (h : ∀ b ∈ bs, b < 256) :
    base64DecodeQuanta (base64Encode bs) = some bs := by
  induction bs using base64Encode.induct with
  | case1 a b c rest ih =>
    have ha : a < 256 := h a (by simp)
    have hb : b < 256 := h b (by simp)
    have hc : c < 256 := h c (by simp)
    have hrest : ∀ x ∈ rest, x < 256 := fun x hx => h x (by simp [hx])
    obtain ⟨d0, e0, -⟩ := decodeDigit_encodeDigit ((a * 65536 + b * 256 + c) / 262144 % 64)
      (Nat.mod_lt _ (by decide))
    obtain ⟨d1, e1, -⟩ := decodeDigit_encodeDigit ((a * 65536 + b * 256 + c) / 4096 % 64)
      (Nat.mod_lt _ (by decide))
    obtain ⟨d2, e2, -⟩ := decodeDigit_encodeDigit ((a * 65536 + b * 256 + c) / 64 % 64)
      (Nat.mod_lt _ (by decide))
    obtain ⟨d3, e3, -⟩ := decodeDigit_encodeDigit ((a * 65536 + b * 256 + c) % 64)
      (Nat.mod_lt _ (by decide))
    have h1 : ((a * 65536 + b * 256 + c) / 262144 % 64 * 262144 +
        (a * 65536 + b * 256 + c) / 4096 % 64 * 4096 + (a * 65536 + b * 256 + c) / 64 % 64 * 64 +
        (a * 65536 + b * 256 + c) % 64) = a * 65536 + b * 256 + c := by omega
    have h2 : (a * 65536 + b * 256 + c) / 65536 % 256 = a := by omega
    have h3 : (a * 65536 + b * 256 + c) / 256 % 256 = b := by omega
    have h4 : (a * 65536 + b * 256 + c) % 256 = c := by omega
    simp [base64Encode, base64DecodeQuanta, d0, d1, d2, d3, e2, e3, ih hrest, h1, h2, h3, h4]
  | case2 a b =>
    have ha : a < 256 := h a (by simp)
    have hb : b < 256 := h b (by simp)
    obtain ⟨d0, e0, -⟩ := decodeDigit_encodeDigit ((a * 65536 + b * 256) / 262144 % 64)
      (Nat.mod_lt _ (by decide))
    obtain ⟨d1, e1, -⟩ := decodeDigit_encodeDigit ((a * 65536 + b * 256) / 4096 % 64)
      (Nat.mod_lt _ (by decide))
    obtain ⟨d2, e2, -⟩ := decodeDigit_encodeDigit ((a * 65536 + b * 256) / 64 % 64)
      (Nat.mod_lt _ (by decide))
    have h1 : ((a * 65536 + b * 256) / 262144 % 64 * 262144 +
        (a * 65536 + b * 256) / 4096 % 64 * 4096 + (a * 65536 + b * 256) / 64 % 64 * 64)
        = a * 65536 + b * 256 := by omega
    have h2 : (a * 65536 + b * 256) / 65536 % 256 = a := by omega
    have h3 : (a * 65536 + b * 256) / 256 % 256 = b := by omega
    simp [base64Encode, base64DecodeQuanta, d0, d1, d2, e2, h1, h2, h3]
  | case3 a =>
    have ha : a < 256 := h a (by simp)
    obtain ⟨d0, e0, -⟩ := decodeDigit_encodeDigit ((a * 65536) / 262144 % 64)
      (Nat.mod_lt _ (by decide))
    obtain ⟨d1, e1, -⟩ := decodeDigit_encodeDigit ((a * 65536) / 4096 % 64)
      (Nat.mod_lt _ (by decide))
    have h1 : ((a * 65536) / 262144 % 64 * 262144 + (a * 65536) / 4096 % 64 * 4096)
        / 65536 % 256 = a := by omega
    simp [base64Encode, base64DecodeQuanta, d0, d1, h1]
  | case4 => simp [base64Encode, base64DecodeQuanta]

/-- Go `DecodeString` inverts `EncodeToString` on byte sequences. -/
theorem base64Decode_encode (bs : List Nat) (h : ∀ b ∈ bs, b < 256) :
    base64Decode (String.mk (base64Encode bs)) = some bs := by
  unfold base64Decode
  have hf : (base64Encode bs).filter (fun c => decide (c ≠ '\r' ∧ c ≠ '\n')) = base64Encode bs := by
    rw [List.filter_eq_self]
    intro ch hch
    simpa using base64Encode_no_line_break bs ch hch
  simp only [hf]
  exact base64DecodeQuanta_encode bs h

/-! ### UTF-8 -/

/-- The code point of a character is a Unicode scalar value. -/
theorem char_toNat_valid (c : Char) :
    c.toNat < 0xD800 ∨ (0xDFFF < c.toNat ∧ c.toNat < 0x110000) := c.valid

/-- Decoding a two-byte encoding. -/
theorem decodeRune_two (r : Nat) (h80 : 0x80 ≤ r) (h2 : r < 0x800) (rest : List Nat) :
    decodeRune ([0xC0 + r / 64, 0x80 + r % 64] ++ rest) = (r, 2) := by
  have e1 : ¬ (192 + r / 64 < 128) := by omega
  have e2 : ¬ (192 + r / 64 < 194 ∨ 244 < 192 + r / 64) := by omega
  have e3 : 192 + r / 64 < 224 := by omega
  have e4 : ¬ (192 + r / 64 = 224) := by omega
  have e5 : ¬ (192 + r / 64 = 240) := by omega
  have e6 : ¬ (192 + r / 64 = 237) := by omega
  have e7 : ¬ (192 + r / 64 = 244) := by omega
  have e8 : ¬ (128 + r % 64 < 128 ∨ 191 < 128 + r % 64) := by omega
  have e9 : ¬ (rest.length + 1 + 1 < 2) := by omega
  have e10 : (192 + r / 64) % 32 * 64 + (128 + r % 64) % 64 = r := by omega
  simp only [List.cons_append, List.nil_append, decodeRune, List.length_cons, List.length_nil,
    e1, e2, e3, e4, e5, e6, e7, e8, e9, e10, if_true, if_false, le_refl]

/-- Decoding a three-byte encoding of a value that is not a surrogate. -/
theorem decodeRune_three (r : Nat) (h1 : 0x800 ≤ r) (h2 : r < 0x10000)
    (hv : r < 0xD800 ∨ 0xDFFF < r) (rest : List Nat) :
    decodeRune ([0xE0 + r / 4096, 0x80 + r / 64 % 64, 0x80 + r % 64] ++ rest) = (r, 3) := by
  have e1 : ¬ (224 + r / 4096 < 128) := by omega
  have e2 : ¬ (224 + r / 4096 < 194 ∨ 244 < 224 + r / 4096) := by omega
  have e3 : ¬ (224 + r / 4096 < 224) := by omega
  have e3' : 224 + r / 4096 < 240 := by omega
  have e5 : ¬ (224 + r / 4096 = 240) := by omega
  have e7 : ¬ (224 + r / 4096 = 244) := by omega
  have e9 : ¬ (rest.length + 1 + 1 + 1 < 3) := by omega
  have e10 : (224 + r / 4096) % 16 * 4096 + (128 + r / 64 % 64) % 64 * 64 + (128 + r % 64) % 64
      = r := by omega
  have e11 : ¬ (128 + r % 64 < 128 ∨ 191 < 128 + r % 64) := by omega
  have e12 : ¬ (3 ≤ 2) := by omega
  have e8 : ¬ ((128 + r / 64 % 64 < if 224 + r / 4096 = 224 then 160 else 128) ∨
      (if 224 + r / 4096 = 237 then 159 else 191) < 128 + r / 64 % 64) := by
    split_ifs <;> omega
  simp only [List.cons_append, List.nil_append, decodeRune, List.length_cons, List.length_nil,
    e1, e2, e3, e3', e5, e7, e8, e9, e10, e11, e12, if_true, if_false, le_refl]

/-- Decoding a four-byte encoding. -/
theorem decodeRune_four (r : Nat) (h1 : 0x10000 ≤ r) (h2 : r < 0x110000) (rest : List Nat) :
    decodeRune ([0xF0 + r / 262144, 0x80 + r / 4096 % 64, 0x80 + r / 64 % 64, 0x80 + r % 64]
      ++ rest) = (r, 4) := by
  have e1 : ¬ (240 + r / 262144 < 128) := by omega
  have e2 : ¬ (240 + r / 262144 < 194 ∨ 244 < 240 + r / 262144) := by omega
  have e3 : ¬ (240 + r / 262144 < 224) := by omega
  have e3' : ¬ (240 + r / 262144 < 240) := by omega
  have e4 : ¬ (240 + r / 262144 = 224) := by omega
  have e6 : ¬ (240 + r / 262144 = 237) := by omega
  have e9 : ¬ (rest.length + 1 + 1 + 1 + 1 < 4) := by omega
  have e10 : (240 + r / 262144) % 8 * 262144 + (128 + r / 4096 % 64) % 64 * 4096
      + (128 + r / 64 % 64) % 64 * 64 + (128 + r % 64) % 64 = r := by omega
  have e11 : ¬ (128 + r % 64 < 128 ∨ 191 < 128 + r % 64) := by omega
  have e13 : ¬ (128 + r / 64 % 64 < 128 ∨ 191 < 128 + r / 64 % 64) := by omega
  have e12 : ¬ (4 ≤ 2) := by omega
  have e14 : ¬ (4 ≤ 3) := by omega
  have e8 : ¬ ((128 + r / 4096 % 64 < if 240 + r / 262144 = 240 then 144 else 128) ∨
      (if 240 + r / 262144 = 244 then 143 else 191) < 128 + r / 4096 % 64) := by
    split_ifs <;> omega
  simp only [List.cons_append, List.nil_append, decodeRune, List.length_cons, List.length_nil,
    e1, e2, e3, e3', e4, e6, e8, e9, e10, e11, e12, e13, e14, if_true, if_false, le_refl]

/-- The UTF-8 bytes of a scalar value outside ASCII: at least two bytes, each
below 256, the first one at least 0xC2; decoding them gives the value and their
number. -/
theorem utf8EncodeRune_multi (r : Nat)
    (hv : r < 0xD800 ∨ (0xDFFF < r ∧ r < 0x110000)) (h80 : 0x80 ≤ r) :
    ∃ b t, utf8EncodeRune r = b :: t ∧ 0xC2 ≤ b ∧ 1 ≤ t.length ∧
      (∀ x ∈ b :: t, x < 256) ∧
      ∀ rest, decodeRune (b :: (t ++ rest)) = (r, t.length + 1) := by
  unfold utf8EncodeRune
  split_ifs with h1 h2 h3 h4
  · omega
  · refine ⟨_, _, rfl, by omega, by simp, ?_, fun rest => decodeRune_two r h80 h2 rest⟩
    intro x hx
    simp only [List.mem_cons, List.mem_singleton, List.not_mem_nil, or_false] at hx
    rcases hx with rfl | rfl <;> omega
  · omega
  · refine ⟨_, _, rfl, by omega, by simp, ?_,
      fun rest => decodeRune_three r (by omega) h4 (by omega) rest⟩
    intro x hx
    simp only [List.mem_cons, List.mem_singleton, List.not_mem_nil, or_false] at hx
    rcases hx with rfl | rfl | rfl <;> omega
  · refine ⟨_, _, rfl, by omega, by simp, ?_,
      fun rest => decodeRune_four r (by omega) (by omega) rest⟩
    intro x hx
    simp only [List.mem_cons, List.mem_singleton, List.not_mem_nil, or_false] at hx
    rcases hx with rfl | rfl | rfl | rfl <;> omega

/-- The bytes of a text that starts with the character `c`. -/
theorem stringBytes_cons (c : Char) (cs : List Char) :
    stringBytes (c :: cs) = utf8EncodeRune c.toNat ++ stringBytes cs := by
  simp [stringBytes]

/-! ### The JSON string encoder on valid UTF-8 -/

/-- One iteration of the encoder loop on an ASCII byte. -/
theorem encodeStringLoop_ascii (f b : Nat) (tl : List Nat) (hb : b < 0x80) :
    encodeStringLoop (f + 1) (b :: tl) =
      if htmlSafeSet b then b :: encodeStringLoop f tl
      else escapeByte b ++ encodeStringLoop f tl := by
  simp [encodeStringLoop, hb]

/-- One iteration of the encoder loop on a byte outside ASCII that starts a
valid encoding. -/
theorem encodeStringLoop_multi (f b : Nat) (tl : List Nat) (r size : Nat) (hb : ¬ b < 0x80)
    (hdec : decodeRune (b :: tl) = (r, size)) (hsz : ¬ (r = RuneError ∧ size = 1)) :
    encodeStringLoop (f + 1) (b :: tl) =
      if r = 0x2028 ∨ r = 0x2029 then
        [0x5C, 0x75, 0x32, 0x30, 0x32, hex (r % 16)] ++ encodeStringLoop f ((b :: tl).drop size)
      else (b :: tl).take size ++ encodeStringLoop f ((b :: tl).drop size) := by
  simp only [encodeStringLoop, hb, if_false, hdec, hsz]

/-- On the bytes of a text the encoder loop writes the text character by
character, given one unit of fuel per byte. -/
theorem encodeStringLoop_stringBytes (cs : List Char) :
    ∀ fuel, (stringBytes cs).length ≤ fuel →
      encodeStringLoop fuel (stringBytes cs) = cs.flatMap jsonRune := by
  induction cs with
  | nil =>
    intro fuel _
    cases fuel <;> simp [stringBytes, encodeStringLoop]
  | cons c cs ih =>
    intro fuel hfuel
    rw [stringBytes_cons] at hfuel ⊢
    rw [List.flatMap_cons]
    by_cases hc : c.toNat < 0x80
    · have he : utf8EncodeRune c.toNat = [c.toNat] := by simp [utf8EncodeRune, hc]
      rw [he] at hfuel ⊢
      obtain ⟨f, rfl⟩ : ∃ f, fuel = f + 1 := ⟨fuel - 1, by simp at hfuel; omega⟩
      have hf : (stringBytes cs).length ≤ f := by simp at hfuel; omega
      rw [List.singleton_append, encodeStringLoop_ascii f _ _ hc, ih f hf]
      simp only [jsonRune, hc, if_true]
      split_ifs <;> simp
    · obtain ⟨b, t, he, hb, ht, -, hdec⟩ :=
        utf8EncodeRune_multi c.toNat (char_toNat_valid c) (by omega)
      have hj : jsonRune c = if c.toNat = 0x2028 ∨ c.toNat = 0x2029 then
          [0x5C, 0x75, 0x32, 0x30, 0x32, hex (c.toNat % 16)] else b :: t := by
        simp only [jsonRune, hc, if_false, he]
      rw [he] at hfuel ⊢
      obtain ⟨f, rfl⟩ : ∃ f, fuel = f + 1 := ⟨fuel - 1, by simp at hfuel; omega⟩
      have hf : (stringBytes cs).length ≤ f := by simp at hfuel; omega
      have hb80 : ¬ b < 0x80 := by omega
      have hsz : ¬ (c.toNat = RuneError ∧ t.length + 1 = 1) := by omega
      have hdrop : List.drop (t.length + 1) (b :: (t ++ stringBytes cs)) = stringBytes cs := by
        simp
      have htake : List.take (t.length + 1) (b :: (t ++ stringBytes cs)) = b :: t := by
        simp
      rw [List.cons_append, encodeStringLoop_multi f b _ _ _ hb80 (hdec _) hsz, hdrop, htake,
        ih f hf, hj]
      split_ifs <;> simp

/-! ### The JSON string decoder on what the encoder writes -/

/-- Reading back a hexadecimal digit. -/
theorem hexValue_hex (n : Nat) (h : n < 16) : hexValue (hex n) = some n := by
  interval_cases n <;> decide

/-- One iteration of the decoder loop on a plain ASCII byte. -/
theorem unquoteLoop_plain (f b : Nat) (tl : List Nat) (h1 : b ≠ 0x5C) (h2 : b ≠ 0x22)
    (h3 : ¬ b < 0x20) (h4 : b < 0x80) :
    unquoteLoop (f + 1) (b :: tl) =
      (unquoteLoop f tl).map (fun r => (Char.ofNat b :: r.1, r.2)) := by
  simp only [unquoteLoop, h1, h2, h3, h4, if_false, if_true]

/-- One iteration of the decoder loop on a one-letter escape. -/
theorem unquoteLoop_simple (f e : Nat) (tl : List Nat) (ch : Char) (he : e ≠ 0x75)
    (hs : simpleEscape e = some ch) :
    unquoteLoop (f + 1) (0x5C :: e :: tl) =
      (unquoteLoop f tl).map (fun r => (ch :: r.1, r.2)) := by
  simp only [unquoteLoop, he, hs, if_false, if_true]

/-- One iteration of the decoder loop on an escape of four hexadecimal digits
that is not a surrogate. -/
theorem unquoteLoop_u4 (f a b c d : Nat) (tl : List Nat) (rr : Nat)
    (hg : getu4 (0x5C :: 0x75 :: a :: b :: c :: d :: tl) = some rr)
    (hns : ¬ (0xD800 ≤ rr ∧ rr < 0xE000)) :
    unquoteLoop (f + 1) (0x5C :: 0x75 :: a :: b :: c :: d :: tl) =
      (unquoteLoop f tl).map (fun r => (Char.ofNat rr :: r.1, r.2)) := by
  simp only [unquoteLoop, hg, hns, if_false, if_true, List.drop_succ_cons, List.drop_zero]

/-- One iteration of the decoder loop on a byte outside ASCII. -/
theorem unquoteLoop_multi (f b : Nat) (tl : List Nat) (r size : Nat) (hb : 0x80 ≤ b)
    (hdec : decodeRune (b :: tl) = (r, size)) :
    unquoteLoop (f + 1) (b :: tl) =
      (unquoteLoop f ((b :: tl).drop size)).map (fun x => (Char.ofNat r :: x.1, x.2)) := by
  have h1 : b ≠ 0x5C := by omega
  have h2 : b ≠ 0x22 := by omega
  have h3 : ¬ b < 0x20 := by omega
  have h4 : ¬ b < 0x80 := by omega
  simp only [unquoteLoop, h1, h2, h3, h4, if_false, hdec]

/-- The digits of an escape `\u00XY` or `\u202X` are read back as the number
they write. -/
theorem getu4_hex (a b c d : Nat) (ha : a < 16) (hb : b < 16) (hc : c < 16) (hd : d < 16)
    (tl : List Nat) :
    getu4 (0x5C :: 0x75 :: hex a :: hex b :: hex c :: hex d :: tl)
      = some (((a * 16 + b) * 16 + c) * 16 + d) := by
  simp [getu4, hexValue_hex, ha, hb, hc, hd]

/-- The decoder loop reads what the encoder writes for one character as that
character, in one iteration. -/
theorem unquoteLoop_jsonRune_step (c : Char) (f : Nat) (tl : List Nat) :
    unquoteLoop (f + 1) (jsonRune c ++ tl) =
      (unquoteLoop f tl).map (fun r => (c :: r.1, r.2)) := by
  have hcr : Char.ofNat c.toNat = c := Char.ofNat_toNat c
  by_cases hc : c.toNat < 0x80
  · by_cases hs : htmlSafeSet c.toNat = true
    · have hj : jsonRune c = [c.toNat] := by simp [jsonRune, hc, hs]
      simp only [htmlSafeSet, decide_eq_true_eq] at hs
      rw [hj, List.singleton_append,
        unquoteLoop_plain f _ tl (by omega) (by omega) (by omega) (by omega), hcr]
    · have hj : jsonRune c = escapeByte c.toNat := by simp [jsonRune, hc, hs]
      simp only [htmlSafeSet, decide_eq_true_eq] at hs
      rw [hj]
      unfold escapeByte
      split_ifs with h1 h2 h3 h4
      · have hse : simpleEscape c.toNat = some (Char.ofNat c.toNat) := by
          rcases h1 with h | h <;> simp [simpleEscape, h]
        rw [hcr] at hse
        exact unquoteLoop_simple f _ tl c (by omega) hse
      · have hse : simpleEscape 0x6E = some c := by
          rw [← hcr, h2]; rfl
        exact unquoteLoop_simple f _ tl c (by decide) hse
      · have hse : simpleEscape 0x72 = some c := by
          rw [← hcr, h3]; rfl
        exact unquoteLoop_simple f _ tl c (by decide) hse
      · have hse : simpleEscape 0x74 = some c := by
          rw [← hcr, h4]; rfl
        exact unquoteLoop_simple f _ tl c (by decide) hse
      · have hg := getu4_hex 0 0 (c.toNat / 16) (c.toNat % 16) (by decide) (by decide)
          (by omega) (by omega) tl
        have hval : ((0 * 16 + 0) * 16 + c.toNat / 16) * 16 + c.toNat % 16 = c.toNat := by
          omega
        rw [hval] at hg
        have h := unquoteLoop_u4 f _ _ _ _ tl c.toNat hg (by omega)
        rw [hcr] at h
        exact h
  · by_cases h28 : c.toNat = 0x2028 ∨ c.toNat = 0x2029
    · have hj : jsonRune c = [0x5C, 0x75, 0x32, 0x30, 0x32, hex (c.toNat % 16)] := by
        simp only [jsonRune, hc, if_false, h28, if_true]
      have hg := getu4_hex 2 0 2 (c.toNat % 16) (by decide) (by decide) (by decide)
        (by omega) tl
      have hval : ((2 * 16 + 0) * 16 + 2) * 16 + c.toNat % 16 = c.toNat := by omega
      rw [hval] at hg
      have h := unquoteLoop_u4 f _ _ _ _ tl c.toNat hg (by omega)
      rw [hcr] at h
      rw [hj]
      exact h
    · obtain ⟨b, t, he, hb, ht, -, hdec⟩ :=
        utf8EncodeRune_multi c.toNat (char_toNat_valid c) (by omega)
      have hj : jsonRune c = b :: t := by simp only [jsonRune, hc, if_false, h28, he]
      have hdrop : List.drop (t.length + 1) (b :: (t ++ tl)) = tl := by simp
      rw [hj, List.cons_append, unquoteLoop_multi f b _ _ _ (by omega) (hdec tl), hdrop, hcr]

/-- What the encoder writes for a character is never empty. -/
theorem jsonRune_length_pos (c : Char) : 1 ≤ (jsonRune c).length := by
  unfold jsonRune
  split_ifs
  · simp
  · unfold escapeByte
    split_ifs <;> simp
  · simp
  · obtain ⟨b, t, he, -⟩ := utf8EncodeRune_multi c.toNat (char_toNat_valid c) (by omega)
    rw [he]
    simp

/-- The decoder loop reads an encoded text followed by the closing quote as the
text, and stops after the quote. -/
theorem unquoteLoop_flatMap_jsonRune (cs : List Char) :
    ∀ fuel rest, cs.length < fuel →
      unquoteLoop fuel (cs.flatMap jsonRune ++ 0x22 :: rest) = some (cs, rest) := by
  induction cs with
  | nil =>
    intro fuel rest h
    obtain ⟨f, rfl⟩ : ∃ f, fuel = f + 1 := ⟨fuel - 1, by omega⟩
    simp [unquoteLoop]
  | cons c cs ih =>
    intro fuel rest h
    obtain ⟨f, rfl⟩ : ∃ f, fuel = f + 1 := ⟨fuel - 1, by omega⟩
    rw [List.flatMap_cons, List.append_assoc, unquoteLoop_jsonRune_step,
      ih f rest (by simp at h; omega)]
    rfl

/-- The length of an encoded text is at least the number of its characters. -/
theorem length_le_flatMap_jsonRune (cs : List Char) :
    cs.length ≤ (cs.flatMap jsonRune).length := by
  induction cs with
  | nil => simp
  | cons c cs ih =>
    rw [List.flatMap_cons, List.length_append, List.length_cons]
    have := jsonRune_length_pos c
    omega

/-- A string literal written by the encoder is parsed back to the text. -/
theorem parseString_encodeString (cs : List Char) (rest : List Nat) :
    parseString (encodeString (stringBytes cs) ++ rest) = some (cs, rest) := by
  have h := encodeStringLoop_stringBytes cs (stringBytes cs).length (le_refl _)
  have hl := length_le_flatMap_jsonRune cs
  simp only [encodeString, h, List.singleton_append, List.cons_append, List.append_assoc,
    parseString, if_true]
  exact unquoteLoop_flatMap_jsonRune cs _ rest
    (by simp only [List.length_append, List.length_cons, List.length_nil]; omega)

/-- A key written between quotes without escaping is parsed back to the key. -/
theorem parseString_key (cs : List Char) (hplain : stringBytes cs = cs.flatMap jsonRune)
    (rest : List Nat) :
    parseString (0x22 :: (stringBytes cs ++ 0x22 :: rest)) = some (cs, rest) := by
  have hl := length_le_flatMap_jsonRune cs
  simp only [parseString, if_true, hplain]
  exact unquoteLoop_flatMap_jsonRune cs _ rest
    (by simp only [List.length_append, List.length_cons]; omega)

/-- An encoded member starts with a quote. -/
theorem encodeMember_append (name value : String) (rest : List Nat) :
    encodeMember name value ++ rest =
      0x22 :: (stringBytes name.data ++
        0x22 :: 0x3A :: (encodeString (stringBytes value.data) ++ rest)) := by
  simp [encodeMember]

/-- No white space is skipped in front of a string literal. -/
theorem skipSpace_encodeString (s rest : List Nat) :
    skipSpace (encodeString s ++ rest) = encodeString s ++ rest := by
  simp [encodeString, skipSpace]

/-- No white space is skipped in front of a member. -/
theorem skipSpace_encodeMember (name value : String) (rest : List Nat) :
    skipSpace (encodeMember name value ++ rest) = encodeMember name value ++ rest := by
  rw [encodeMember_append]
  simp [skipSpace]

/-- One iteration of the member loop on an encoded member followed by a comma or
a closing brace. -/
theorem objectLoop_member (f : Nat) (a : AuthConfig) (name value : String) (d : Nat)
    (s4 : List Nat) (hplain : stringBytes name.data = name.data.flatMap jsonRune)
    (hd : d = 0x2C ∨ d = 0x7D) :
    objectLoop (f + 1) a (encodeMember name value ++ d :: s4) =
      if d = 0x2C then
        objectLoop f
          (match findField name.data with
            | some i => a.setField i value
            | none => a) (skipSpace s4)
      else
        some (match findField name.data with
          | some i => a.setField i value
          | none => a, s4) := by
  have hsp : skipSpace (d :: s4) = d :: s4 := by
    rcases hd with rfl | rfl <;> simp [skipSpace]
  have hd2 : d ≠ 0x2C → d = 0x7D := by omega
  rw [encodeMember_append]
  simp only [objectLoop, parseString_key name.data hplain, skipSpace, ne_eq, not_true,
    if_false, skipSpace_encodeString, parseString_encodeString, hsp]
  simp only [show (0x3A : Nat) = 0x20 ∨ (0x3A : Nat) = 0x09 ∨ (0x3A : Nat) = 0x0D
      ∨ (0x3A : Nat) = 0x0A ↔ False by decide, if_false, not_true, ne_eq]
  rw [skipSpace_encodeString, parseString_encodeString]
  simp only [hsp]
  split_ifs with h1 h2
  · rfl
  · rfl
  · exact absurd (hd2 h1) h2

/-! ### Marshal and unmarshal of the credentials -/

/-- The two keys the encoder writes need no escaping. -/
theorem keys_plain :
    stringBytes "username".data = "username".data.flatMap jsonRune ∧
    stringBytes "password".data = "password".data.flatMap jsonRune := by
  constructor <;> decide

/-- The two keys the encoder writes select the fields they come from. -/
theorem keys_findField :
    findField "username".data = some 0 ∧ findField "password".data = some 1 := by
  constructor <;> decide

/-- The JSON written for a user name and a password, by whether each is empty. -/
theorem jsonMarshal_credentials (u p : String) :
    jsonMarshal { Username := u, Password := p } =
      if u = "" then
        if p = "" then [0x7B, 0x7D]
        else 0x7B :: (encodeMember "password" p ++ [0x7D])
      else
        if p = "" then 0x7B :: (encodeMember "username" u ++ [0x7D])
        else 0x7B :: (encodeMember "username" u ++
          0x2C :: (encodeMember "password" p ++ [0x7D])) := by
  by_cases hu : u = "" <;> by_cases hp : p = "" <;>
  simp [jsonMarshal, authConfigFieldNames, AuthConfig.fieldValues, List.filter, hu, hp,
    encodeMembers]

/-- An object whose first member was written by the encoder is handed to the
member loop, with at least two units of fuel. -/
theorem jsonUnmarshal_members (name value : String) (rest : List Nat) (a : AuthConfig)
    (h : ∀ f, objectLoop (f + 2) {} (encodeMember name value ++ rest) = some (a, [])) :
    jsonUnmarshal (0x7B :: (encodeMember name value ++ rest)) = some a := by
  obtain ⟨f, hf⟩ : ∃ f, (0x7B :: (encodeMember name value ++ rest)).length = f + 2 := by
    refine ⟨(encodeMember name value ++ rest).length - 1, ?_⟩
    rw [encodeMember_append]
    simp only [List.length_cons]
    omega
  have hobj := h f
  unfold jsonUnmarshal
  rw [hf]
  rw [encodeMember_append] at hobj ⊢
  have h1 : skipSpace (0x7B :: 0x22 :: (stringBytes name.data ++
      0x22 :: 0x3A :: (encodeString (stringBytes value.data) ++ rest))) =
      0x7B :: 0x22 :: (stringBytes name.data ++
      0x22 :: 0x3A :: (encodeString (stringBytes value.data) ++ rest)) := by
    simp [skipSpace]
  have h2 : skipSpace (0x22 :: (stringBytes name.data ++
      0x22 :: 0x3A :: (encodeString (stringBytes value.data) ++ rest))) =
      0x22 :: (stringBytes name.data ++
      0x22 :: 0x3A :: (encodeString (stringBytes value.data) ++ rest)) := by
    simp [skipSpace]
  rw [h1]
  simp only [h2, hobj]
  simp [skipSpace]

/-- Unmarshalling the JSON written for a user name and a password gives them
back, every other field empty. -/
theorem jsonUnmarshal_jsonMarshal (u p : String) :
    jsonUnmarshal (jsonMarshal { Username := u, Password := p })
      = some { Username := u, Password := p } := by
  rw [jsonMarshal_credentials]
  split_ifs with hu hp hp
  · subst hu hp
    decide
  · subst hu
    apply jsonUnmarshal_members
    intro f
    rw [objectLoop_member (f + 1) _ _ _ _ _ keys_plain.2 (Or.inr rfl)]
    simp [keys_findField.2, AuthConfig.setField]
  · subst hp
    apply jsonUnmarshal_members
    intro f
    rw [objectLoop_member (f + 1) _ _ _ _ _ keys_plain.1 (Or.inr rfl)]
    simp [keys_findField.1, AuthConfig.setField]
  · apply jsonUnmarshal_members
    intro f
    rw [objectLoop_member (f + 1) _ _ _ _ _ keys_plain.1 (Or.inl rfl), if_pos rfl,
      skipSpace_encodeMember, objectLoop_member f _ _ _ _ _ keys_plain.2 (Or.inr rfl)]
    simp [keys_findField.1, keys_findField.2, AuthConfig.setField]

/-- What the encoder writes for a character are bytes. -/
theorem jsonRune_lt (c : Char) : ∀ b ∈ jsonRune c, b < 256 := by
  have hhex : ∀ n, n < 16 → hex n < 256 := by
    intro n hn
    unfold hex
    split_ifs <;> omega
  unfold jsonRune
  split_ifs with h1 h2 h3
  · intro b hb
    simp only [List.mem_singleton] at hb
    omega
  · unfold escapeByte
    have := hhex (c.toNat / 16) (by omega)
    have := hhex (c.toNat % 16) (by omega)
    split_ifs <;> intro b hb <;>
      simp only [List.mem_cons, List.mem_singleton, List.not_mem_nil, or_false] at hb <;>
      omega
  · have := hhex (c.toNat % 16) (by omega)
    intro b hb
    simp only [List.mem_cons, List.mem_singleton, List.not_mem_nil, or_false] at hb
    omega
  · obtain ⟨b, t, he, -, -, hlt, -⟩ :=
      utf8EncodeRune_multi c.toNat (char_toNat_valid c) (by omega)
    rw [he]
    exact hlt

/-- An encoded text is made of bytes. -/
theorem flatMap_jsonRune_lt (cs : List Char) : ∀ b ∈ cs.flatMap jsonRune, b < 256 := by
  intro b hb
  rw [List.mem_flatMap] at hb
  obtain ⟨c, -, hc⟩ := hb
  exact jsonRune_lt c b hc

/-- An encoded member is made of bytes. -/
theorem encodeMember_lt (name value : String)
    (hplain : stringBytes name.data = name.data.flatMap jsonRune) :
    ∀ b ∈ encodeMember name value, b < 256 := by
  have h := encodeStringLoop_stringBytes value.data (stringBytes value.data).length (le_refl _)
  have h1 := flatMap_jsonRune_lt name.data
  have h2 := flatMap_jsonRune_lt value.data
  intro b hb
  simp only [encodeMember, encodeString, h, hplain, List.mem_append, List.mem_cons,
    List.mem_singleton, List.not_mem_nil, or_false] at hb
  rcases hb with ((rfl | hb) | rfl | rfl) | (rfl | hb) | rfl
  · decide
  · exact h1 b hb
  · decide
  · decide
  · decide
  · exact h2 b hb
  · decide

/-- The JSON written for a user name and a password is made of bytes, starts
with an opening brace and ends with a closing brace. -/
theorem jsonMarshal_shape (u p : String) :
    (∀ b ∈ jsonMarshal { Username := u, Password := p }, b < 256) ∧
    (jsonMarshal { Username := u, Password := p }).head? = some 0x7B ∧
    (jsonMarshal { Username := u, Password := p }).getLast? = some 0x7D := by
  have hu := encodeMember_lt "username" u keys_plain.1
  have hp := encodeMember_lt "password" p keys_plain.2
  have hlast : ∀ (l : List Nat), (0x7B :: (l ++ [0x7D])).getLast? = some 0x7D := by
    intro l
    rw [← List.cons_append, List.getLast?_concat]
  have hlast2 : ∀ (l m : List Nat), (0x7B :: (l ++ 0x2C :: (m ++ [0x7D]))).getLast?
      = some 0x7D := by
    intro l m
    have h := hlast (l ++ 0x2C :: m)
    simpa using h
  rw [jsonMarshal_credentials]
  split_ifs <;> refine ⟨?_, by simp, by first | rfl | exact hlast _ | exact hlast2 _ _⟩ <;>
    intro b hb <;>
    simp only [List.mem_append, List.mem_cons, List.mem_singleton, List.not_mem_nil,
      or_false] at hb
  · rcases hb with rfl | rfl <;> decide
  · rcases hb with rfl | hb | rfl
    · decide
    · exact hp b hb
    · decide
  · rcases hb with rfl | hb | rfl
    · decide
    · exact hu b hb
    · decide
  · rcases hb with rfl | hb | rfl | hb | rfl
    · decide
    · exact hu b hb
    · decide
    · exact hp b hb
    · decide

/-- C5: for every user name and password, decoding `genAuthStr username password`
with the padded URL-safe base64 alphabet succeeds; the bytes decoded are the JSON
object written by `json.Marshal`, between braces; unmarshalling them gives a
record with that user name and that password and every other field empty; and
`genAuthStr "u" "p"` is the token of the object with user name "u" and password
"p". -/
theorem genAuthStr_round_trip (username password : String) :
    (∃ json, base64Decode (genAuthStr username password) = some json ∧
      json.head? = some 0x7B ∧ json.getLast? = some 0x7D ∧
      jsonUnmarshal json = some
        { Username := username, Password := password, Auth := "", Email := "",
          ServerAddress := "", IdentityToken := "", RegistryToken := "" }) ∧
    genAuthStr "u" "p" = "eyJ1c2VybmFtZSI6InUiLCJwYXNzd29yZCI6InAifQ==" ∧
    (base64Decode (genAuthStr "u" "p")).bind jsonUnmarshal =
      some { Username := "u", Password := "p" } := by
  have hshape := jsonMarshal_shape username password
  refine ⟨⟨jsonMarshal { Username := username, Password := password }, ?_, hshape.2.1,
    hshape.2.2, jsonUnmarshal_jsonMarshal username password⟩, by decide, by decide⟩
  unfold genAuthStr
  exact base64Decode_encode _ hshape.1

end Dockerclient
